import Mathlib

/-!
Verification development for the fika-core itinerary planner.

The Python sources are shallowly embedded: Python `str` values that are
manipulated character-wise are modelled as `List Char` (`PyStr`), dicts as
association lists or `Option`-valued fields, machine floats as `ℚ` (or `ℝ`
where the code applies transcendental functions), raised exceptions as
`Except`/`Option`, and the external OR-Tools solver, OSRM client, datetime
parser and random generator as oracle parameters.
-/

namespace Fika

/-! ### Python string primitives (modelled as lists of characters) -/

/-- Python `str` modelled as a list of characters. -/
abbrev PyStr := List Char

/-- Python `s.lower()`. -/
def pyLower (s : PyStr) : PyStr := s.map Char.toLower

/-- Python `pat in s` (substring containment). -/
def pyContains (s pat : PyStr) : Bool := decide (pat <:+: s)

/-- Auxiliary for `pySplit`: accumulates the current chunk (reversed). -/
def pySplitAux (sep : Char) : PyStr → PyStr → List PyStr
  | [], acc => [acc.reverse]
  | c :: cs, acc =>
    if c = sep then acc.reverse :: pySplitAux sep cs []
    else pySplitAux sep cs (c :: acc)

/-- Python `s.split(sep)` for a one-character separator. -/
def pySplit (s : PyStr) (sep : Char) : List PyStr := pySplitAux sep s []

/-- Fuel-indexed body of `pyReplace`; fuel bounds the scan length. -/
def pyReplaceAux (t r : PyStr) : ℕ → PyStr → PyStr
  | 0, s => s
  | fuel + 1, s =>
    if t ≠ [] ∧ t <+: s then r ++ pyReplaceAux t r fuel (s.drop t.length)
    else
      match s with
      | [] => []
      | c :: cs => c :: pyReplaceAux t r fuel cs

/-- Python `s.replace(t, r)`: left-to-right, non-overlapping. -/
def pyReplace (s t r : PyStr) : PyStr := pyReplaceAux t r s.length s

/-- Python `s.strip()`. -/
def pyStrip (s : PyStr) : PyStr :=
  ((s.dropWhile Char.isWhitespace).reverse.dropWhile Char.isWhitespace).reverse

/-- Digit-string to number; `none` on empty or non-digit input. -/
def digitsToNat (ds : PyStr) : Option ℕ :=
  if ds = [] ∨ ¬ ds.all Char.isDigit then none
  else some (ds.foldl (fun a c => a * 10 + (c.toNat - 48)) 0)

/-- Python `int(s)`: optional sign, surrounding whitespace; raises (`none`)
otherwise. -/
def pyInt (s : PyStr) : Option ℤ :=
  match pyStrip s with
  | '-' :: ds => (digitsToNat ds).map (fun n => -(n : ℤ))
  | '+' :: ds => (digitsToNat ds).map (fun n => (n : ℤ))
  | ds => (digitsToNat ds).map (fun n => (n : ℤ))

/-- Python `sep.join(xs)`. -/
def pyJoin (sep : PyStr) (xs : List PyStr) : PyStr := List.intercalate sep xs

/-- Index of the last occurrence of `t` in `s`, if any. -/
def lastOccur (s t : PyStr) : Option ℕ :=
  ((List.range (s.length + 1)).filter (fun i => decide (t <+: s.drop i))).getLast?

/-- Python `s.rsplit(t, 1)[0]`: everything before the last occurrence of `t`
(the whole string when `t` does not occur). -/
def rsplitHead (s t : PyStr) : PyStr :=
  match lastOccur s t with
  | none => s
  | some i => s.take i

/-- Python truthiness filter on an optional integer: `None` and `0` are falsy. -/
def truthyInt : Option ℤ → Option ℤ
  | some v => if v = 0 then none else some v
  | none => none

/-- Python truthiness filter on an optional string: `None` and `""` are falsy. -/
def truthyStr : Option String → Option String
  | some s => if s = "" then none else some s
  | none => none

/-! ### transformers.py -/

/-- The frontend `dates` object as read by `calculate_num_days`. -/
structure DatesObj where
  days : Option ℤ := none
  dtype : Option String := none
  startDate : Option String := none
  endDate : Option String := none

/-- The slice of the frontend payload that `calculate_num_days` reads. -/
structure FrontendPayload where
  numDays : Option ℤ := none
  dates : Option DatesObj := none

/-- Embeds `transformers.calculate_num_days`.  `parseTs` is the
`datetime.fromisoformat` oracle returning a POSIX timestamp in seconds
(`none` models a raised `ValueError`, which the code catches); the Python
`timedelta.days` attribute is floor division of the second difference
by 86400. -/
def calculate_num_days (parseTs : PyStr → Option ℤ) (payload : FrontendPayload) : ℤ :=
  match truthyInt payload.numDays with
  | some v => max 1 v
  | none =>
    match payload.dates with
    | none => 3
    | some d =>
      match truthyInt d.days with
      | some v => max 1 v
      | none =>
        if d.dtype = some "specific" then
          match truthyStr d.startDate, truthyStr d.endDate with
          | some s, some e =>
            match parseTs (pyReplace s.toList ['Z'] "+00:00".toList),
                parseTs (pyReplace e.toList ['Z'] "+00:00".toList) with
            | some sTs, some eTs => max 1 ((eTs - sTs).fdiv 86400 + 1)
            | _, _ => 3
          | _, _ => 3
        else 3

/-! ### maut.py: dimensions, weights, quotas -/

/-- The seven MAUT scoring dimensions. -/
inductive Dim
  | interest
  | cost
  | popularity
  | child
  | dietary
  | pet
  | access
deriving DecidableEq, Fintype

/-- Embeds `BASE_WEIGHTS`. -/
def BASE_WEIGHTS : Dim → ℚ
  | .interest => 3 / 10
  | .cost => 2 / 10
  | .popularity => 1 / 10
  | .child => 1 / 10
  | .dietary => 1 / 10
  | .pet => 1 / 10
  | .access => 1 / 10

/-- The request flags dict (absent keys read as `False`). -/
structure Flags where
  hasChild : Bool := false
  hasPets : Bool := false
  wheelchairAccessible : Bool := false
  isMuslim : Bool := false
  excludeNightlife : Bool := false
deriving DecidableEq

/-- The slice of the internal MAUT request that scoring reads. -/
structure MautReq where
  flags : Flags := {}
  dietaryRestrictions : List String := []
  budgetTier : String := "sensible"
  numDays : Option ℤ := none
deriving DecidableEq

/-- Embeds `maut.applicable_dims`. -/
def applicable_dims (req : MautReq) (poiRoles : List String) : Finset Dim :=
  let d0 : Finset Dim := {Dim.interest, Dim.cost, Dim.popularity}
  let d1 := if req.flags.hasChild then insert Dim.child d0 else d0
  let d2 := if req.flags.hasPets then insert Dim.pet d1 else d1
  let d3 :=
    if "halal" ∈ req.dietaryRestrictions ∧ "meal" ∈ poiRoles then insert Dim.dietary d2
    else d2
  if req.flags.wheelchairAccessible then insert Dim.access d3 else d3

/-- The three role quotas returned by `role_keep_counts`. -/
structure RoleQuotas where
  attraction : ℤ
  meal : ℤ
  accommodation : ℤ
deriving DecidableEq

/-- Embeds `maut.role_keep_counts`; `num_days or 7` maps `None`/`0` to 7. -/
def role_keep_counts (numDays : Option ℤ) : RoleQuotas :=
  let d := max 1 (match truthyInt numDays with | some v => v | none => 7)
  { attraction := min (12 * d) 300
    meal := min (5 * d) 50
    accommodation := min (d + 5) 15 }

/-! ### maut.py: per-dimension scores and `score_row` -/

/-- The slice of an internal catalog `Row` that scoring reads.  Optional
numeric fields model possibly-missing / `None` catalog data; attribute
booleans are the Python truthiness of the stored values. -/
structure MautRow where
  id : String := ""
  poiRoles : List String := []
  themes : Option (List String) := none
  reviewCount : Option ℤ := none
  reviewRating : Option ℚ := none
  priceLevel : Option ℚ := none
  kidsFriendly : Bool := false
  petsFriendly : Bool := false
  halalFood : Bool := false
  veganOptions : Bool := false
  vegetarianOptions : Bool := false
  wheelchairEntrance : Bool := false
  wheelchairSeating : Bool := false
  wheelchairToilet : Bool := false
deriving DecidableEq

/-- Embeds `BUDGET_TARGET.get(budget_tier, 4.0)`. -/
def budgetTarget (t : String) : ℚ :=
  if t = "tight" then 1
  else if t = "sensible" then 2
  else if t = "upscale" then 3
  else if t = "luxury" then 4
  else 4

/-- Embeds `maut.budget_alignment`. -/
def budget_alignment (priceLevel : Option ℚ) (budgetTier : String) : ℚ :=
  match priceLevel with
  | none => 1
  | some p => max 0 (1 - |p - budgetTarget budgetTier| / 3)

/-- Embeds `maut.popularity_score`.  `math.log10` is modelled by
`Real.logb 10`; the `not reviews or reviews <= 0` guard covers `None`, `0`
and negative counts. -/
noncomputable def popularity_score (rating : Option ℚ) (reviews : Option ℤ) : ℝ :=
  let r : ℝ := match rating with
    | none => 0
    | some x => max 0 (min 1 ((x : ℝ) / 5))
  match reviews with
  | none => (1 / 2) * r
  | some rv =>
    if rv ≤ 0 then (1 / 2) * r
    else (7 / 10) * r + (3 / 10) * min 1 (Real.logb 10 (1 + (rv : ℝ)) / 3)

/-- Embeds `maut.any_accessible`. -/
def any_accessible (row : MautRow) : Bool :=
  row.wheelchairEntrance || row.wheelchairSeating || row.wheelchairToilet

/-- Embeds `maut.interest_match_score`: matched themes over the number of
selected themes. -/
def interest_match_score (poiThemes : Option (List String)) (selected : List String) : ℚ :=
  match poiThemes with
  | none => 0
  | some ts =>
    if ts = [] ∨ selected = [] then 0
    else ((ts.toFinset ∩ selected.toFinset).card : ℚ) / (selected.length : ℚ)

/-- Embeds `maut.renorm_weights` together with the `W.get(d, 0)` read used by
`score_row`: dimensions outside the applicable set read as weight `0`. -/
def renorm_weights (dims : Finset Dim) (d : Dim) : ℚ :=
  if d ∈ dims then
    (if 0 < dims.sum BASE_WEIGHTS then BASE_WEIGHTS d / dims.sum BASE_WEIGHTS else 0)
  else 0

/-- Embeds `maut.dietary_score`. -/
def dietary_score (req : MautReq) (row : MautRow) : ℚ :=
  if req.dietaryRestrictions = [] then 1 / 2
  else if ("halal" ∈ req.dietaryRestrictions ∧ row.halalFood)
      ∨ ("vegan" ∈ req.dietaryRestrictions ∧ row.veganOptions)
      ∨ ("vegetarian" ∈ req.dietaryRestrictions ∧ (row.vegetarianOptions ∨ row.veganOptions))
    then 1 else 0

/-- The `is_attraction` gate of `score_row`. -/
def isPureAttraction (roles : List String) : Prop :=
  "attraction" ∈ roles ∧ "meal" ∉ roles ∧ "accommodation" ∉ roles

instance (roles : List String) : Decidable (isPureAttraction roles) := by
  unfold isPureAttraction; infer_instance

/-- Per-dimension score `s_interest` of `score_row`. -/
def sInterest (req : MautReq) (row : MautRow) (selected : List String) : ℚ :=
  if Dim.interest ∈ applicable_dims req row.poiRoles ∧ isPureAttraction row.poiRoles
  then interest_match_score row.themes selected else 0

/-- Per-dimension score `s_cost` of `score_row`. -/
def sCost (req : MautReq) (row : MautRow) : ℚ :=
  if Dim.cost ∈ applicable_dims req row.poiRoles
  then budget_alignment row.priceLevel req.budgetTier else 0

/-- Per-dimension score `s_pop` of `score_row`. -/
noncomputable def sPop (req : MautReq) (row : MautRow) : ℝ :=
  if Dim.popularity ∈ applicable_dims req row.poiRoles
  then popularity_score row.reviewRating row.reviewCount else 0

/-- Per-dimension score `s_child` of `score_row`. -/
def sChild (req : MautReq) (row : MautRow) : ℚ :=
  if Dim.child ∈ applicable_dims req row.poiRoles ∧ row.kidsFriendly then 1 else 0

/-- Per-dimension score `s_diet` of `score_row`. -/
def sDiet (req : MautReq) (row : MautRow) : ℚ :=
  if Dim.dietary ∈ applicable_dims req row.poiRoles then dietary_score req row else 0

/-- Per-dimension score `s_pet` of `score_row`. -/
def sPet (req : MautReq) (row : MautRow) : ℚ :=
  if Dim.pet ∈ applicable_dims req row.poiRoles ∧ row.petsFriendly then 1 else 0

/-- Per-dimension score `s_access` of `score_row`. -/
def sAccess (req : MautReq) (row : MautRow) : ℚ :=
  if Dim.access ∈ applicable_dims req row.poiRoles ∧ any_accessible row then 1 else 0

/-- Embeds `maut.score_row`: weighted sum of the seven per-dimension scores
under the renormalised applicable weights. -/
noncomputable def score_row (req : MautReq) (row : MautRow) (selected : List String) : ℝ :=
  (renorm_weights (applicable_dims req row.poiRoles) .interest : ℝ)
      * (sInterest req row selected : ℝ)
    + (renorm_weights (applicable_dims req row.poiRoles) .cost : ℝ) * (sCost req row : ℝ)
    + (renorm_weights (applicable_dims req row.poiRoles) .popularity : ℝ) * sPop req row
    + (renorm_weights (applicable_dims req row.poiRoles) .child : ℝ) * (sChild req row : ℝ)
    + (renorm_weights (applicable_dims req row.poiRoles) .dietary : ℝ) * (sDiet req row : ℝ)
    + (renorm_weights (applicable_dims req row.poiRoles) .pet : ℝ) * (sPet req row : ℝ)
    + (renorm_weights (applicable_dims req row.poiRoles) .access : ℝ) * (sAccess req row : ℝ)

/-! ### cvrptw.py: configuration, helpers, problem building -/

/-- Embeds `PACE_DAY_BUDGET_MIN.get(pacing, PACE_DAY_BUDGET_MIN["balanced"])`. -/
def paceDayBudgetMin (pacing : String) : ℤ :=
  if pacing = "relaxed" then 9 * 60
  else if pacing = "balanced" then 11 * 60
  else if pacing = "packed" then 13 * 60
  else 11 * 60

/-- Embeds `SERVICE_TIME[role][pacing]`; dict indexing raises `KeyError`
(`Except.error`) on unknown keys. -/
def serviceTime (role pacing : String) : Except String ℤ :=
  let byPace : Option (ℤ × ℤ × ℤ) :=
    if role = "attraction" then some (120, 90, 60)
    else if role = "meal" then some (75, 60, 45)
    else if role = "accommodation" then some (0, 0, 0)
    else none
  match byPace with
  | none => Except.error "KeyError"
  | some (r, b, p) =>
    if pacing = "relaxed" then Except.ok r
    else if pacing = "balanced" then Except.ok b
    else if pacing = "packed" then Except.ok p
    else Except.error "KeyError"

/-- Embeds `DEFAULT_ROLE_WINDOWS.get(role, (9*60, 21*60))`. -/
def defaultRoleWindow (role : String) : ℤ × ℤ :=
  if role = "attraction" then (9 * 60, 19 * 60)
  else if role = "meal" then (10 * 60, 22 * 60)
  else if role = "accommodation" then (0, 24 * 60)
  else if role = "depot" then (0, 24 * 60)
  else (9 * 60, 21 * 60)

/-- Embeds `cvrptw.DaySpec`. Dates are day ordinals (`ℤ`). -/
structure DaySpec where
  dayIndex : ℤ
  date : ℤ
  startMin : ℤ
  endMin : ℤ
  depotId : String
deriving DecidableEq

/-- Embeds `cvrptw.Node`.  `themes = none` models Python `None`; window keys
are the (possibly negative, for malformed mandatory days) day indices. -/
structure Node where
  idx : ℕ
  poiId : String
  name : String
  role : String
  lat : ℚ
  lon : ℚ
  service : ℤ
  themes : Option (List String)
  windowsByDay : List (ℤ × List (ℤ × ℤ))
  isMandatory : Bool := false
deriving DecidableEq

/-- Placeholder node used to model Python list indexing at call sites where
the index is known to be in range. -/
def dummyNode : Node :=
  { idx := 0, poiId := "", name := "", role := "", lat := 0, lon := 0,
    service := 0, themes := none, windowsByDay := [] }

/-- Embeds `cvrptw.parse_time_range_label`'s inner `to_min`.  The code treats
any token without `"am"` as pm; parse failures model raised exceptions. -/
def toMin (x : PyStr) : Option ℤ :=
  let y := pyReplace (pyLower x) [' '] []
  let isAm := pyContains y "am".toList
  let hhmm := pyReplace (pyReplace y "am".toList []) "pm".toList []
  let adjust : ℤ → ℤ → Option ℤ := fun h m =>
    let h2 := if isAm then (if h = 12 then 0 else h) else (if h ≠ 12 then h + 12 else h)
    some (h2 * 60 + m)
  if pyContains hhmm [':'] then
    match pySplit hhmm ':' with
    | [hs, ms] =>
      match pyInt hs, pyInt ms with
      | some h, some m => adjust h m
      | _, _ => none
    | _ => none
  else
    match pyInt hhmm with
    | some h => adjust h 0
    | none => none

/-- Embeds `cvrptw.parse_time_range_label`. -/
def parse_time_range_label (label : PyStr) : Option (ℤ × ℤ) :=
  let s := pyStrip label
  if pyContains (pyLower s) "closed".toList then none
  else if pyContains (pyLower s) "open 24 hours".toList then some (0, 24 * 60)
  else
    match pySplit s '-' with
    | [l, r] =>
      match toMin (pyStrip l), toMin (pyStrip r) with
      | some a, some b => some (a, if b ≤ a then 24 * 60 else b)
      | _, _ => none
    | _ => none

/-- Embeds `cvrptw.weekday_name` for dates modelled as day ordinals, with
ordinal 0 mapping to Monday. -/
def weekday_name (d : ℤ) : String :=
  ["Monday", "Tuesday", "Wednesday", "Thursday", "Friday", "Saturday",
    "Sunday"].getD (d % 7).toNat ""

/-- Embeds `cvrptw.minutes` (`'HH:MM'` to minutes; exceptions as `none`). -/
def minutes (hhmm : PyStr) : Option ℤ :=
  match pySplit hhmm ':' with
  | [hs, ms] =>
    match pyInt hs, pyInt ms with
    | some h, some m => some (h * 60 + m)
    | _, _ => none
  | _ => none

/-- Embeds `cvrptw.pick_theme`: first selected theme whose space-form occurs
in the lowercased space-joined POI themes. -/
def pick_theme (themes : List String) (selectedThemes : List String) : Option String :=
  let cat := pyLower (pyJoin [' '] (themes.map String.toList))
  selectedThemes.find? (fun t => pyContains cat (pyReplace t.toList ['_'] [' ']))

/-- Embeds `cvrptw.day_span`. -/
def day_span (pacing : String) : ℤ × ℤ :=
  (9 * 60, 9 * 60 + paceDayBudgetMin pacing)

/-- Embeds the per-label body of the loop in `cvrptw.extract_windows_for_date`:
threads `(out, closed_explicit)`. -/
def extractWindowStep (defaultWindow : ℤ × ℤ) (acc : List (ℤ × ℤ) × Bool)
    (lab : String) : List (ℤ × ℤ) × Bool :=
  if pyContains (pyLower lab.toList) "closed".toList then (acc.1, true)
  else
    match parse_time_range_label lab.toList with
    | none => acc
    | some (a, b) =>
      if max a defaultWindow.1 ≤ min b defaultWindow.2 then
        (acc.1 ++ [(max a defaultWindow.1, min b defaultWindow.2)], acc.2)
      else acc

/-- Embeds `cvrptw.extract_windows_for_date`.  `openHours` is the POI's
open-hours dict as an association list; `none` and the empty dict are falsy. -/
def extract_windows_for_date (openHours : Option (List (String × List String)))
    (date : ℤ) (defaultWindow : ℤ × ℤ) : List (ℤ × ℤ) :=
  match openHours with
  | none => [defaultWindow]
  | some oh =>
    if oh = [] then [defaultWindow]
    else
      match List.lookup (weekday_name date) oh with
      | none => [defaultWindow]
      | some raw =>
        if raw = [] then [defaultWindow]
        else
          if (raw.foldl (extractWindowStep defaultWindow) ([], false)).1 ≠ [] then
            (raw.foldl (extractWindowStep defaultWindow) ([], false)).1
          else if (raw.foldl (extractWindowStep defaultWindow) ([], false)).2 then []
          else [defaultWindow]

/-! ### cvrptw.py: node materialisation and `build_problem` -/

/-- The slice of the API `POI` dict consumed by `_add_poi_node`. -/
structure Poi where
  id : String
  name : String
  themes : Option (List String) := none
  coordinates : Option (ℚ × ℚ) := none
  latitude : Option ℚ := none
  longitude : Option ℚ := none
  openHours : Option (List (String × List String)) := none
  poiRoles : List String := []
deriving DecidableEq

/-- A `mandatory` entry: 1-based day plus `[HH:MM, HH:MM]` window strings. -/
structure MandSpec where
  day : ℤ
  window : List String
deriving DecidableEq

/-- The hotel argument of `run_cvrptw`. -/
structure Hotel where
  id : String
  name : String
  lat : ℚ
  lon : ℚ
deriving DecidableEq

/-- Embeds `cvrptw._add_poi_node` for a day-specific copy (the only call mode
of `build_problem`): returns `none` when the POI is skipped for that day,
`Except.error` when the Python would raise.  `compositeId` is the already
suffixed `<poi_id>_day<k>` id and `daySpecific` the `_day_specific` marker. -/
def addPoiNode (poi : Poi) (compositeId : String) (role : String) (idx : ℕ)
    (daySpecs : List DaySpec) (pacing : String) (selThemes : List String)
    (mandatory : Option (List (String × MandSpec))) (daySpecific : ℤ) :
    Except String (Option Node) := do
  let service ← serviceTime role pacing
  let _theme := pick_theme (poi.themes.getD []) selThemes
  let coords : Option ℚ × Option ℚ :=
    match poi.coordinates with
    | some c => (some c.1, some c.2)
    | none => (poi.latitude, poi.longitude)
  match coords with
  | (some lat, some lon) =>
    let roleDefault := defaultRoleWindow role
    let d := daySpecs.getD daySpecific.toNat
      { dayIndex := 0, date := 0, startMin := 0, endMin := 0, depotId := "" }
    let dayDefault := (max d.startMin roleDefault.1, min d.endMin roleDefault.2)
    let windows := extract_windows_for_date poi.openHours d.date dayDefault
    if windows = [] then pure none
    else do
      let wbd0 : List (ℤ × List (ℤ × ℤ)) := [(daySpecific, windows)]
      let baseId := String.mk (rsplitHead compositeId.toList "_day".toList)
      let withMand : Except String (List (ℤ × List (ℤ × ℤ)) × Bool) :=
        match mandatory with
        | none => Except.ok (wbd0, false)
        | some mlist =>
          if mlist = [] then Except.ok (wbd0, false)
          else
            match List.lookup baseId mlist with
            | none => Except.ok (wbd0, false)
            | some md =>
              let dk := md.day - 1
              if daySpecific = dk then
                match md.window with
                | w0 :: w1 :: _ =>
                  match minutes w0.toList, minutes w1.toList with
                  | some a, some b => Except.ok ([(dk, [(a, b)])], true)
                  | _, _ => Except.error "ValueError in minutes"
                | _ => Except.error "IndexError in mandatory window"
              else Except.ok (wbd0, false)
      let (wbd, isMand) ← withMand
      pure (some
        { idx := idx, poiId := compositeId, name := poi.name, role := role,
          lat := lat, lon := lon, service := service,
          themes := poi.themes, windowsByDay := wbd, isMandatory := isMand })
  | _ => pure none

/-- Decimal digits of a natural number, as characters. -/
def natChars (n : ℕ) : PyStr :=
  (Nat.toDigits 10 n)

/-- The composite id `f"{poi['id']}_day{day_idx}"`. -/
def compositeDayId (baseId : String) (dayIdx : ℕ) : String :=
  String.mk (baseId.toList ++ "_day".toList ++ natChars dayIdx)

/-- The `meta.dates` object of the MAUT output. -/
structure MetaDates where
  dtype : Option String := none
  startDate : Option String := none
  endDate : Option String := none
deriving DecidableEq

/-- The slice of the MAUT pipeline output consumed by `build_problem`. -/
structure MautOutput where
  metaNumDays : Option ℤ := none
  rootNumDays : Option ℤ := none
  dates : Option MetaDates := none
  selectedThemes : List String := []
  poisByRole : List (String × List Poi) := []
  places : List Poi := []
deriving DecidableEq

/-- External collaborators of the CVRPTW stage: `dt.date` parsing and today,
the OSRM travel matrix, and the OR-Tools `SolveWithParameters` call. -/
structure CvrptwEnv (Sol : Type) where
  parseDate : String → Option ℤ
  today : ℤ
  matrixMinutes : List (ℚ × ℚ) → List (List ℤ)
  solve : List DaySpec → List Node → List (List ℤ) → ℕ → Option Sol

/-- Role resolution of the flat-places fallback path of `build_problem`. -/
def flatRole (roles : List String) : String :=
  if "meal" ∈ roles then "meal"
  else if "accommodation" ∈ roles then "accommodation"
  else "attraction"

/-- Folds `_add_poi_node` over the per-day copies of one POI, threading the
node list and the `idx` counter (which advances even when a copy is skipped,
as in the source). -/
def addPoiAllDays (daySpecs : List DaySpec) (pacing : String)
    (selThemes : List String) (mandatory : Option (List (String × MandSpec)))
    (numDays : ℕ) (poi : Poi) (role : String) (st : List Node × ℕ) :
    Except String (List Node × ℕ) :=
  (List.range numDays).foldlM
    (fun (st : List Node × ℕ) dayIdx => do
      let cid := compositeDayId poi.id dayIdx
      let nd ← addPoiNode poi cid role st.2 daySpecs pacing selThemes mandatory
        (dayIdx : ℤ)
      match nd with
      | none => pure (st.1, st.2 + 1)
      | some n => pure (st.1 ++ [n], st.2 + 1))
    st

/-- Embeds `cvrptw.build_problem`. -/
def build_problem {Sol : Type} (env : CvrptwEnv Sol) (mo : MautOutput)
    (hotel : Hotel) (pacing : String)
    (mandatory : Option (List (String × MandSpec))) :
    Except String (List DaySpec × List Node × List (List ℤ)) := do
  let nd0 :=
    match truthyInt mo.metaNumDays with
    | some v => some v
    | none => truthyInt mo.rootNumDays
  let ndA : ℤ :=
    match nd0 with
    | some v => if v ≤ 0 then 3 else v
    | none => 3
  let startAndDays : Except String (ℤ × ℤ) :=
    match mo.dates with
    | some md =>
      if md.dtype = some "specific" ∧ (truthyStr md.startDate).isSome then
        match (truthyStr md.startDate).bind (fun s => (env.parseDate s).map id) with
        | none => Except.error "ValueError in fromisoformat"
        | some startD =>
          match truthyStr md.endDate with
          | none => Except.ok (startD, ndA)
          | some e =>
            match env.parseDate e with
            | none => Except.error "ValueError in fromisoformat"
            | some endD => Except.ok (startD, endD - startD + 1)
      else Except.ok (env.today, ndA)
    | none => Except.ok (env.today, ndA)
  let (start, numDays) ← startAndDays
  let dSpan := day_span pacing
  let daySpecs : List DaySpec :=
    (List.range numDays.toNat).map (fun k =>
      { dayIndex := (k : ℤ), date := start + (k : ℤ), startMin := dSpan.1,
        endMin := dSpan.2, depotId := hotel.id })
  let depot : Node :=
    { idx := 0, poiId := hotel.id, name := hotel.name, role := "depot",
      lat := hotel.lat, lon := hotel.lon, service := 0, themes := none,
      windowsByDay := daySpecs.map (fun d => (d.dayIndex, [(d.startMin, d.endMin)])) }
  let st0 : List Node × ℕ := ([depot], 1)
  let built : Except String (List Node × ℕ) :=
    if mo.poisByRole ≠ [] then
      ["meal", "attraction", "accommodation"].foldlM
        (fun st role =>
          if role = "accommodation" then pure st
          else
            ((mo.poisByRole.lookup role).getD []).foldlM
              (fun st poi =>
                addPoiAllDays daySpecs pacing mo.selectedThemes mandatory
                  numDays.toNat poi role st)
              st)
        st0
    else
      mo.places.foldlM
        (fun st poi =>
          addPoiAllDays daySpecs pacing mo.selectedThemes mandatory
            numDays.toNat poi (flatRole poi.poiRoles) st)
        st0
  let (nodes, _) ← built
  let travel := env.matrixMinutes (nodes.map (fun n => (n.lat, n.lon)))
  pure (daySpecs, nodes, travel)

/-! ### cvrptw.py: solver-facing arc costs and meal constraints -/

/-- Embeds the solver's `transit_cb`: travel plus origin service plus the
meal-to-meal and same-first-theme penalties.  Note the code compares the raw
`themes[0]` entries, not the computed primary theme. -/
def transit_cb (nodes : List Node) (travel : List (List ℤ)) (i j : ℕ) : ℤ :=
  (travel.getD i []).getD j 0 + (nodes.getD i dummyNode).service
    + (if (nodes.getD i dummyNode).role = "meal"
          ∧ (nodes.getD j dummyNode).role = "meal" then (40 : ℤ) else 0)
    + (if ((nodes.getD i dummyNode).themes.getD [] ≠ []
            ∧ (nodes.getD j dummyNode).themes.getD [] ≠ [])
          ∧ ((nodes.getD i dummyNode).themes.getD []).headD ""
            = ((nodes.getD j dummyNode).themes.getD []).headD "" then (15 : ℤ)
      else 0)

/-- Embeds the `available_meals` count of `solve_cvrptw` for vehicle `v`:
meal nodes available on more than one day or on day `v`. -/
def availableMeals (nodes : List Node) (v : ℤ) : ℕ :=
  (nodes.filter (fun n =>
    n.role = "meal"
      ∧ (1 < n.windowsByDay.length ∨ v ∈ n.windowsByDay.map Prod.fst))).length

/-- Embeds the `meals_required` computation of `run_cvrptw`:
`min(2, meal_nodes // len(day_specs))` when meal nodes exist, else 0. -/
def runMealsRequired (nodes : List Node) (numDaySpecs : ℕ) : ℕ :=
  if 0 < (nodes.filter (fun n => n.role = "meal")).length ∧ 0 < numDaySpecs then
    min 2 ((nodes.filter (fun n => n.role = "meal")).length / numDaySpecs)
  else 0

/-- Embeds the per-vehicle end-cumul meal range set by `solve_cvrptw`
(`meal_dim.CumulVar(routing.End(v)).SetRange(req_min, req_max)`); `none`
when no range constraint is imposed. -/
def mealEndConstraint (nodes : List Node) (mealsRequired : ℕ) (v : ℤ) :
    Option (ℕ × ℕ) :=
  if 0 < mealsRequired then
    if 0 < min mealsRequired (availableMeals nodes v) then
      some (min mealsRequired (availableMeals nodes v), min 3 (availableMeals nodes v))
    else none
  else none

/-! ### cvrptw.py: output assembly, `solve_cvrptw`, `run_cvrptw` -/

/-- A stop dict of the assembled plan (and, after enrichment, of the ACO
stage).  `latitude`/`longitude` are optional to model dict entries that may
be absent or `None` downstream. -/
structure Stop where
  poiId : String := ""
  name : String := ""
  role : String := ""
  themes : Option (List String) := none
  arrival : ℤ := 0
  startService : ℤ := 0
  depart : ℤ := 0
  latitude : Option ℚ := none
  longitude : Option ℚ := none
  coordinates : Option (ℚ × ℚ) := none
deriving DecidableEq

/-- Placeholder stop for modelled list indexing. -/
def dummyStop : Stop := {}

/-- A day of the assembled plan. -/
structure DayPlan where
  date : ℤ
  stops : List Stop
  meals : ℕ
deriving DecidableEq

/-- The dict returned by `solve_cvrptw` / `run_cvrptw`. -/
structure RunResult where
  days : List DayPlan
  note : Option String := none
deriving DecidableEq

/-- The abstract OR-Tools assignment for the assembled plan: per vehicle the
visited `(node index, cumul minutes)` sequence of the start-to-end traversal
(excluding the route end) and the end cumul. -/
structure SolverSolution where
  visits : ℕ → List (ℕ × ℤ)
  endTime : ℕ → ℤ

/-- The stop dict emitted for a visited non-depot node. -/
def mkPoiStop (n : Node) (t : ℤ) : Stop :=
  { poiId := n.poiId, name := n.name, role := n.role, themes := n.themes,
    arrival := t, startService := t, depart := t + n.service,
    latitude := some n.lat, longitude := some n.lon }

/-- The hotel-return stop appended at the end of each day. -/
def mkHotelStop (depotNode : Node) (t : ℤ) : Stop :=
  { poiId := depotNode.poiId, name := depotNode.name, role := "hotel",
    arrival := t, startService := t, depart := t,
    latitude := some depotNode.lat, longitude := some depotNode.lon }

/-- Embeds the per-day emission loop of `solve_cvrptw`: non-depot visits
become stops (counting meals), then one final hotel stop is appended at the
route-end cumul. -/
def buildDay (nodes : List Node) (d : DaySpec) (visits : List (ℕ × ℤ))
    (endT : ℤ) : DayPlan :=
  let emit := visits.foldl
    (fun (acc : List Stop × ℕ) (p : ℕ × ℤ) =>
      let n := nodes.getD p.1 dummyNode
      if n.role ≠ "depot" then
        (acc.1 ++ [mkPoiStop n p.2], acc.2 + (if n.role = "meal" then 1 else 0))
      else acc)
    ([], 0)
  { date := d.date,
    stops := emit.1 ++ [mkHotelStop (nodes.getD 0 dummyNode) endT],
    meals := emit.2 }

/-- Embeds the result assembly of `solve_cvrptw` over all vehicles. -/
def assembleDays (daySpecs : List DaySpec) (nodes : List Node)
    (sol : SolverSolution) : List DayPlan :=
  (daySpecs.zip (List.range daySpecs.length)).map
    (fun p => buildDay nodes p.1 (sol.visits p.2) (sol.endTime p.2))

/-- Embeds `cvrptw.solve_cvrptw`: input validation, the solver call (as the
oracle-provided optional assignment), and result assembly. -/
def solve_cvrptw (daySpecs : List DaySpec) (nodes : List Node)
    (sol : Option SolverSolution) : RunResult :=
  if daySpecs = [] then { days := [], note := some "No days specified" }
  else if nodes.length ≤ 1 then { days := [], note := some "No POIs available" }
  else
    match sol with
    | none => { days := [], note := some "No feasible solution" }
    | some s => { days := assembleDays daySpecs nodes s }

/-- Embeds `cvrptw.run_cvrptw`: builds the problem, adjusts the meal
requirement, runs the solver; any raised exception is caught and reported in
`note`. -/
def run_cvrptw (env : CvrptwEnv SolverSolution) (mo : MautOutput) (hotel : Hotel)
    (pacing : String) (mandatory : Option (List (String × MandSpec))) : RunResult :=
  match build_problem env mo hotel pacing mandatory with
  | .error e => { days := [], note := some ("Exception in run_cvrptw: " ++ e) }
  | .ok (daySpecs, nodes, travel) =>
    if daySpecs = [] then { days := [], note := some "No day_specs generated" }
    else if nodes.length ≤ 1 then { days := [], note := some "Only depot node" }
    else
      let mealsRequired := runMealsRequired nodes daySpecs.length
      solve_cvrptw daySpecs nodes (env.solve daySpecs nodes travel mealsRequired)

/-! ### pipeline.py / ant_colony_opt.py: the ACO refiner -/

/-- Degrees to radians. -/
noncomputable def radians (x : ℝ) : ℝ := x * Real.pi / 180

/-- Python `math.atan2(y, x)` (full quadrant arctangent). -/
noncomputable def atan2 (y x : ℝ) : ℝ :=
  if 0 < x then Real.arctan (y / x)
  else if x < 0 then
    (if 0 ≤ y then Real.arctan (y / x) + Real.pi else Real.arctan (y / x) - Real.pi)
  else if 0 < y then Real.pi / 2
  else if y < 0 then -(Real.pi / 2)
  else 0

/-- The haversine `a` term of `pipeline.haversine_distance`. -/
noncomputable def havA (lat1 lon1 lat2 lon2 : ℝ) : ℝ :=
  Real.sin (radians (lat2 - lat1) / 2) ^ 2
    + Real.cos (radians lat1) * Real.cos (radians lat2)
      * Real.sin (radians (lon2 - lon1) / 2) ^ 2

/-- Embeds `pipeline.haversine_distance` (km). -/
noncomputable def haversine_distance (lat1 lon1 lat2 lon2 : ℝ) : ℝ :=
  6371 * 2 * atan2 (Real.sqrt (havA lat1 lon1 lat2 lon2))
    (Real.sqrt (1 - havA lat1 lon1 lat2 lon2))

/-- Embeds `ant_colony_opt.ACOConfig` (field defaults are the class
defaults). -/
structure ACOConfig where
  nAnts : ℕ := 50
  nIterations : ℕ := 100
  alpha : ℝ := 1
  beta : ℝ := 2
  evaporationRate : ℝ := 1 / 2
  q : ℝ := 100
  nBest : ℕ := 5

/-- The default configuration built inside `optimize_day_route_with_aco`. -/
noncomputable def wrapperAcoConfig : ACOConfig :=
  { nAnts := 20, nIterations := 50, alpha := 1, beta := 2,
    evaporationRate := 1 / 2, q := 100, nBest := 5 }

/-- The numpy random generator as an oracle: per (iteration, ant) the raw
`randint` draw used for the start city, and per (iteration, ant, step) the
uniform `random()` draw used by roulette-wheel selection. -/
structure AcoRng where
  start : ℕ → ℕ → ℕ
  draw : ℕ → ℕ → ℕ → ℝ

/-- Embeds `np.where(distance_matrix > 0, 1.0 / distance_matrix, 0.0)`. -/
noncomputable def heuristicOf (m : ℕ → ℕ → ℝ) : ℕ → ℕ → ℝ :=
  fun i j => if 0 < m i j then 1 / m i j else 0

/-- Embeds the unnormalised probabilities of `_calculate_probabilities`. -/
noncomputable def probsRaw (ph heur : ℕ → ℕ → ℝ) (visited : ℕ → Bool) (cur : ℕ)
    (alpha beta : ℝ) : ℕ → ℝ :=
  fun j => if visited j then 0 else ph cur j ^ alpha * heur cur j ^ beta

/-- The probability total over the `n` cities. -/
noncomputable def probsTotal (n : ℕ) (p : ℕ → ℝ) : ℝ :=
  (Finset.range n).sum p

/-- Embeds `_calculate_probabilities`: normalised when the total is
positive, otherwise the raw (all-zero on unvisited) values. -/
noncomputable def calcProbs (ph heur : ℕ → ℕ → ℝ) (n : ℕ) (visited : ℕ → Bool)
    (cur : ℕ) (alpha beta : ℝ) : ℕ → ℝ :=
  if 0 < probsTotal n (probsRaw ph heur visited cur alpha beta) then
    fun j => probsRaw ph heur visited cur alpha beta j
      / probsTotal n (probsRaw ph heur visited cur alpha beta)
  else probsRaw ph heur visited cur alpha beta

/-- `np.cumsum` entry `i` of a probability vector. -/
noncomputable def csum (p : ℕ → ℝ) (i : ℕ) : ℝ :=
  (Finset.range (i + 1)).sum p

/-- First index `k` in `[i, i + fuel)` with `r ≤ f k`, else `i + fuel`. -/
noncomputable def ssAux (f : ℕ → ℝ) (r : ℝ) : ℕ → ℕ → ℕ
  | 0, i => i
  | fuel + 1, i => if r ≤ f i then i else ssAux f r fuel (i + 1)

/-- Embeds `np.searchsorted(cumsum, r)` (left side) over `n` entries. -/
noncomputable def searchsorted (f : ℕ → ℝ) (r : ℝ) (n : ℕ) : ℕ := ssAux f r n 0

/-- Embeds the roulette-wheel selection of `_construct_solution`. -/
noncomputable def nextCity (ph heur : ℕ → ℕ → ℝ) (n : ℕ) (visited : ℕ → Bool)
    (cur : ℕ) (alpha beta r : ℝ) : ℕ :=
  searchsorted (csum (calcProbs ph heur n visited cur alpha beta)) r n

/-- Embeds the per-leg distance accumulation
`1.0 / heuristic[current, next] if heuristic[current, next] > 0 else 1e10`. -/
noncomputable def legDist (heur : ℕ → ℕ → ℝ) (i j : ℕ) : ℝ :=
  if 0 < heur i j then 1 / heur i j else 10000000000

/-- The mutable state of one ant's construction loop. -/
structure ConsState where
  visited : ℕ → Bool
  current : ℕ
  path : List ℕ
  dist : ℝ

/-- One step of `_construct_solution`; selecting an index outside the `n`
cities writes out of bounds in the numba kernel, modelled as failure. -/
noncomputable def constructStep (ph heur : ℕ → ℕ → ℝ) (n : ℕ) (alpha beta r : ℝ)
    (st : ConsState) : Option ConsState :=
  if nextCity ph heur n st.visited st.current alpha beta r < n then
    some
      { visited := fun j =>
          if j = nextCity ph heur n st.visited st.current alpha beta r then true
          else st.visited j
        current := nextCity ph heur n st.visited st.current alpha beta r
        path := st.path ++ [nextCity ph heur n st.visited st.current alpha beta r]
        dist := st.dist
          + legDist heur st.current (nextCity ph heur n st.visited st.current alpha beta r) }
  else none

/-- The steps `1, …, n-1` of `_construct_solution`, threading the state. -/
noncomputable def constructAux (ph heur : ℕ → ℕ → ℝ) (n : ℕ) (alpha beta : ℝ)
    (draw : ℕ → ℝ) : List ℕ → ConsState → Option ConsState
  | [], st => some st
  | s :: rest, st =>
    match constructStep ph heur n alpha beta (draw s) st with
    | none => none
    | some st2 => constructAux ph heur n alpha beta draw rest st2

/-- Embeds `_construct_solution`: path of all `n` cities from a start city
plus the tour length including the closing leg. -/
noncomputable def constructSolution (ph heur : ℕ → ℕ → ℝ) (n : ℕ) (start : ℕ)
    (alpha beta : ℝ) (draw : ℕ → ℝ) : Option (List ℕ × ℝ) :=
  match constructAux ph heur n alpha beta draw ((List.range n).drop 1)
      { visited := fun j => j == start, current := start, path := [start], dist := 0 } with
  | none => none
  | some st => some (st.path, st.dist + legDist heur st.current start)

/-- Embeds the `_construct_solutions` loop over all ants of one iteration. -/
noncomputable def antsLoop (cfg : ACOConfig) (ph heur : ℕ → ℕ → ℝ) (n : ℕ)
    (rng : AcoRng) (it : ℕ) : List ℕ → Option (List (List ℕ × ℝ))
  | [] => some []
  | ant :: rest =>
    match constructSolution ph heur n (rng.start it ant % n) cfg.alpha cfg.beta
        (rng.draw it ant) with
    | none => none
    | some s =>
      match antsLoop cfg ph heur n rng it rest with
      | none => none
      | some ss => some (s :: ss)

/-- All ant solutions of iteration `it`. -/
noncomputable def constructSolutions (cfg : ACOConfig) (ph heur : ℕ → ℕ → ℝ)
    (n : ℕ) (rng : AcoRng) (it : ℕ) : Option (List (List ℕ × ℝ)) :=
  antsLoop cfg ph heur n rng it (List.range cfg.nAnts)

/-- Stable insertion into a distance-sorted solution list. -/
noncomputable def insertSol (x : List ℕ × ℝ) :
    List (List ℕ × ℝ) → List (List ℕ × ℝ)
  | [] => [x]
  | y :: ys => if y.2 ≤ x.2 then y :: insertSol x ys else x :: y :: ys

/-- Embeds `solutions.sort(key=lambda x: x[1])` (stable ascending). -/
noncomputable def sortSols : List (List ℕ × ℝ) → List (List ℕ × ℝ)
  | [] => []
  | x :: xs => insertSol x (sortSols xs)

/-- A single `pheromones[i, j] += dep` update. -/
noncomputable def addAt (ph : ℕ → ℕ → ℝ) (i j : ℕ) (dep : ℝ) : ℕ → ℕ → ℝ :=
  fun a b => if a = i ∧ b = j then ph a b + dep else ph a b

/-- The two symmetric `+=` updates for one edge. -/
noncomputable def depositEdge (ph : ℕ → ℕ → ℝ) (i j : ℕ) (dep : ℝ) : ℕ → ℕ → ℝ :=
  addAt (addAt ph i j dep) j i dep

/-- Consecutive pairs of a path. -/
def pathPairs (path : List ℕ) : List (ℕ × ℕ) := path.zip path.tail

/-- Elite-ant deposit of `_update_pheromones`: every edge of the path in both
directions plus the closing `path[-1] → path[0]` edge. -/
noncomputable def depositSol (q : ℝ) (ph : ℕ → ℕ → ℝ) (sol : List ℕ × ℝ) :
    ℕ → ℕ → ℝ :=
  depositEdge
    ((pathPairs sol.1).foldl (fun m p => depositEdge m p.1 p.2 (q / sol.2)) ph)
    (sol.1.getLastD 0) (sol.1.headD 0) (q / sol.2)

/-- Global-best boost of `_update_pheromones`: doubled deposit on every edge
of the best path (no closing edge). -/
noncomputable def boostSol (q : ℝ) (ph : ℕ → ℕ → ℝ) (best : List ℕ × ℝ) :
    ℕ → ℕ → ℝ :=
  (pathPairs best.1).foldl (fun m p => depositEdge m p.1 p.2 (q / best.2 * 2)) ph

/-- Embeds `_update_pheromones`: evaporation, elite deposits, best boost. -/
noncomputable def updatePheromones (cfg : ACOConfig) (ph : ℕ → ℕ → ℝ)
    (best : Option (List ℕ × ℝ)) (sols : List (List ℕ × ℝ)) : ℕ → ℕ → ℝ :=
  match best with
  | none =>
    ((sortSols sols).take cfg.nBest).foldl (depositSol cfg.q)
      (fun i j => ph i j * (1 - cfg.evaporationRate))
  | some bv =>
    boostSol cfg.q
      (((sortSols sols).take cfg.nBest).foldl (depositSol cfg.q)
        (fun i j => ph i j * (1 - cfg.evaporationRate)))
      bv

/-- Embeds the best-solution update loop of `optimize` (`None` is `np.inf`). -/
noncomputable def updateBest (best : Option (List ℕ × ℝ))
    (sols : List (List ℕ × ℝ)) : Option (List ℕ × ℝ) :=
  sols.foldl
    (fun b s =>
      match b with
      | none => some s
      | some bv => if s.2 < bv.2 then some s else b)
    best

/-- The optimizer state across iterations. -/
structure AcoState where
  ph : ℕ → ℕ → ℝ
  best : Option (List ℕ × ℝ)
  history : List (Option ℝ)

/-- One iteration of `optimize`: construct, update best, update pheromones,
record history. -/
noncomputable def acoIter (cfg : ACOConfig) (heur : ℕ → ℕ → ℝ) (n : ℕ)
    (rng : AcoRng) (it : ℕ) (st : AcoState) : Option AcoState :=
  match constructSolutions cfg st.ph heur n rng it with
  | none => none
  | some sols =>
    some
      { ph := updatePheromones cfg st.ph (updateBest st.best sols) sols
        best := updateBest st.best sols
        history := st.history ++ [(updateBest st.best sols).map Prod.snd] }

/-- The iteration loop of `optimize`. -/
noncomputable def optimizeAux (cfg : ACOConfig) (heur : ℕ → ℕ → ℝ) (n : ℕ)
    (rng : AcoRng) : List ℕ → AcoState → Option AcoState
  | [], st => some st
  | it :: rest, st =>
    match acoIter cfg heur n rng it st with
    | none => none
    | some st2 => optimizeAux cfg heur n rng rest st2

/-- Embeds `AntColonyOptimizer.optimize`: the returned `(best_path,
best_distance)` pair, where the inner `none` is Python's `(None, inf)` and
the outer `none` models a numba out-of-bounds failure during construction. -/
noncomputable def optimize (cfg : ACOConfig) (m : ℕ → ℕ → ℝ) (n : ℕ)
    (rng : AcoRng) : Option (Option (List ℕ × ℝ)) :=
  (optimizeAux cfg (heuristicOf m) n rng (List.range cfg.nIterations)
    { ph := fun _ _ => 1, best := none, history := [] }).map (fun st => st.best)

/-- Python `a or b` over optional floats (`0.0` is falsy). -/
def pyOrQ (a b : Option ℚ) : Option ℚ :=
  match a with
  | some x => if x = 0 then b else some x
  | none => b

/-- Coordinate resolution of the wrapper:
`stop.get("latitude") or stop.get("coordinates", {}).get("lat")` and the
longitude analogue; `none` when either is missing. -/
def resolveCoord (s : Stop) : Option (ℚ × ℚ) :=
  match pyOrQ s.latitude (s.coordinates.map Prod.fst),
      pyOrQ s.longitude (s.coordinates.map Prod.snd) with
  | some la, some lo => some (la, lo)
  | _, _ => none

/-- Coordinates of all POI stops; `none` when any stop lacks them (the
wrapper then returns the input unchanged). -/
def coordsOf : List Stop → Option (List (ℚ × ℚ))
  | [] => some []
  | s :: rest =>
    match resolveCoord s with
    | none => none
    | some c =>
      match coordsOf rest with
      | none => none
      | some cs => some (c :: cs)

/-- The wrapper's haversine distance matrix: entries for `i < j` are computed
once and mirrored; the diagonal stays 0. -/
noncomputable def acoMatrix (coords : List (ℚ × ℚ)) : ℕ → ℕ → ℝ :=
  fun i j =>
    if i < j then
      haversine_distance ((coords.getD i (0, 0)).1 : ℝ) ((coords.getD i (0, 0)).2 : ℝ)
        ((coords.getD j (0, 0)).1 : ℝ) ((coords.getD j (0, 0)).2 : ℝ)
    else if j < i then
      haversine_distance ((coords.getD j (0, 0)).1 : ℝ) ((coords.getD j (0, 0)).2 : ℝ)
        ((coords.getD i (0, 0)).1 : ℝ) ((coords.getD i (0, 0)).2 : ℝ)
    else 0

/-- Membership of `stop["role"]` in `["hotel", "depot"]`. -/
def isDepotStop (s : Stop) : Bool := s.role == "hotel" || s.role == "depot"

/-- Embeds `pipeline.optimize_day_route_with_aco`.  The result is `none`
exactly when the Python call raises (numba out-of-bounds write or iterating a
`None` best path). -/
noncomputable def optimize_day_route_with_aco (stops : List Stop)
    (config : Option ACOConfig) (rng : AcoRng) : Option (List Stop) :=
  if stops.length ≤ 2 then some stops
  else if (stops.filter (fun s => ! isDepotStop s)).length ≤ 1 then some stops
  else
    match coordsOf (stops.filter (fun s => ! isDepotStop s)) with
    | none => some stops
    | some coords =>
      match optimize (config.getD wrapperAcoConfig) (acoMatrix coords)
          coords.length rng with
      | none => none
      | some none => none
      | some (some (bestPath, _)) =>
        some
          ((if 0 < (stops.filter isDepotStop).length then
              [(stops.filter isDepotStop).getD 0 dummyStop]
            else [])
          ++ bestPath.map
              (fun i => (stops.filter (fun s => ! isDepotStop s)).getD i dummyStop)
          ++ (if 1 < (stops.filter isDepotStop).length then
                [(stops.filter isDepotStop).getLastD dummyStop]
              else if (stops.filter isDepotStop).length = 1 then
                [(stops.filter isDepotStop).getD 0 dummyStop]
              else []))

/-! ### Properties of the ACO state used by the refiner proof -/

/-- All pheromone entries over the `n` cities are positive. -/
def PhPos (n : ℕ) (ph : ℕ → ℕ → ℝ) : Prop :=
  ∀ i j, i < n → j < n → 0 < ph i j

/-- All off-diagonal heuristic entries over the `n` cities are positive. -/
def HeurPos (n : ℕ) (heur : ℕ → ℕ → ℝ) : Prop :=
  ∀ i j, i < n → j < n → i ≠ j → 0 < heur i j

/-- The invariant of one ant's construction state. -/
def ConsInv (n : ℕ) (st : ConsState) : Prop :=
  st.path.Nodup ∧ (∀ x ∈ st.path, x < n)
    ∧ (∀ x, st.visited x = true ↔ x ∈ st.path)
    ∧ st.current ∈ st.path ∧ 0 ≤ st.dist

/-- A well-formed ant solution: a permutation tour with positive length. -/
def SolGood (n : ℕ) (s : List ℕ × ℝ) : Prop :=
  s.1.Perm (List.range n) ∧ 0 < s.2

/-- Every random draw lies strictly between 0 and 1. -/
def DrawsOk (rng : AcoRng) : Prop :=
  ∀ it ant s, 0 < rng.draw it ant s ∧ rng.draw it ant s < 1

/-! ### Concrete inputs used by counterexamples and witnesses -/

/-- Tiny configuration for the C2 counterexample: one ant, one iteration, no
elite ants. -/
noncomputable def c2cfg : ACOConfig :=
  { nAnts := 1, nIterations := 1, alpha := 1, beta := 2,
    evaporationRate := 1 / 2, q := 100, nBest := 0 }

/-- Degenerate randomness: every draw is exactly 0 (a value `np.random.random`
can return). -/
noncomputable def c2rng : AcoRng := { start := fun _ _ => 0, draw := fun _ _ _ => 0 }

/-- First POI stop of the C2 counterexample. -/
def c2p1 : Stop :=
  { poiId := "p1", name := "P1", role := "attraction", latitude := some 1,
    longitude := some 1 }

/-- Second POI stop, at the same coordinates as the first. -/
def c2p2 : Stop :=
  { poiId := "p2", name := "P2", role := "attraction", latitude := some 1,
    longitude := some 1 }

/-- The single trailing hotel stop, as `solve_cvrptw` emits it. -/
def c2hotel : Stop :=
  { poiId := "h", name := "Hotel", role := "hotel", latitude := some 2,
    longitude := some 2 }

/-- The counterexample day: two POI stops and one trailing hotel stop. -/
def c2stops : List Stop := [c2p1, c2p2, c2hotel]

/-- The resolved coordinates of the two counterexample POI stops. -/
def c2coords : List (ℚ × ℚ) := [(1, 1), (1, 1)]

/-- Well-behaved randomness for the C2 witness: every draw is 1/2. -/
noncomputable def c2rngHalf : AcoRng :=
  { start := fun _ _ => 0, draw := fun _ _ _ => 1 / 2 }

/-- Leading depot stop of the C2 witness day. -/
def c2wh0 : Stop :=
  { poiId := "h", name := "Hotel", role := "hotel", latitude := some 2,
    longitude := some 2 }

/-- North-pole POI of the C2 witness day. -/
def c2wq1 : Stop :=
  { poiId := "q1", name := "Q1", role := "attraction", latitude := some 90,
    longitude := some 1 }

/-- South-pole POI of the C2 witness day. -/
def c2wq2 : Stop :=
  { poiId := "q2", name := "Q2", role := "attraction", latitude := some (-90),
    longitude := some 1 }

/-- A request with the Muslim flag set but no dietary restrictions. -/
def c4req : MautReq := { flags := { isMuslim := true }, dietaryRestrictions := [] }

/-- A payload with an explicit 31-day duration. -/
def c7payload : FrontendPayload := { numDays := some 31 }

/-- A timestamp oracle that always fails (unused by `c7payload`). -/
def c7parse : PyStr → Option ℤ := fun _ => none

/-- Open hours whose Monday label intersects the default window in a single
point. -/
def c8oh : Option (List (String × List String)) := some [("Monday", ["9 am-10 am"])]

/-- An attraction node whose raw theme list starts with `"park"` but whose
primary theme (w.r.t. selected themes `["nature"]`) is `"nature"`. -/
def c6nodeA : Node :=
  { idx := 1, poiId := "a", name := "A", role := "attraction", lat := 0, lon := 0,
    service := 0, themes := some ["park", "nature"], windowsByDay := [(0, [(540, 1140)])] }

/-- An attraction node with raw theme list `["nature"]`. -/
def c6nodeB : Node :=
  { idx := 2, poiId := "b", name := "B", role := "attraction", lat := 0, lon := 0,
    service := 0, themes := some ["nature"], windowsByDay := [(0, [(540, 1140)])] }

/-- Depot plus the two attraction nodes. -/
def c6nodes : List Node :=
  [{ dummyNode with role := "depot" }, c6nodeA, c6nodeB]

/-- A zero travel matrix over three nodes. -/
def c6travel : List (List ℤ) := [[0, 0, 0], [0, 0, 0], [0, 0, 0]]

/-- A day-specific meal-node copy available on day `d`. -/
def c1meal (id : String) (d : ℤ) : Node :=
  { idx := 0, poiId := id, name := id, role := "meal", lat := 0, lon := 0,
    service := 60, themes := none, windowsByDay := [(d, [(600, 1320)])] }

/-- Depot plus two meal POIs, each replicated for two days: four meal nodes. -/
def c1nodes : List Node :=
  [{ dummyNode with role := "depot" }, c1meal "m1_day0" 0, c1meal "m1_day1" 1,
    c1meal "m2_day0" 0, c1meal "m2_day1" 1]

/-- A single-day day-spec list. -/
def c3daySpecs : List DaySpec :=
  [{ dayIndex := 0, date := 0, startMin := 540, endMin := 1200, depotId := "h" }]

/-- Depot plus one attraction. -/
def c3nodes : List Node :=
  [{ dummyNode with role := "depot", poiId := "h", name := "Hotel" },
    { idx := 1, poiId := "p_day0", name := "P", role := "attraction", lat := 1, lon := 2,
      service := 90, themes := some ["nature"], windowsByDay := [(0, [(540, 1140)])] }]

/-- An assignment that visits the depot then the attraction. -/
def c3sol : SolverSolution :=
  { visits := fun _ => [(0, 540), (1, 600)], endTime := fun _ => 700 }

/-- A default day plan used for modelled list indexing. -/
def dummyDay : DayPlan := { date := 0, stops := [], meals := 0 }

/-- A date-parsing oracle for the C10 witness: start date after end date. -/
def c10env : CvrptwEnv SolverSolution :=
  { parseDate := fun s => if s = "2024-01-05" then some 100
      else if s = "2024-01-01" then some 96 else none
    today := 0
    matrixMinutes := fun _ => []
    solve := fun _ _ _ _ => none }

/-- A specific date span that ends before it starts. -/
def c10dates : MetaDates :=
  { dtype := some "specific"
    startDate := some "2024-01-05"
    endDate := some "2024-01-01" }

/-- A MAUT output whose specific date span ends before it starts. -/
def c10mo : MautOutput := { dates := some c10dates }

/-- The hotel used in the C10 witness. -/
def c10hotel : Hotel := { id := "h", name := "Hotel", lat := 1, lon := 2 }

/-! ### Lemmas about the MAUT embedding -/

theorem base_weights_nonneg (d : Dim) : 0 ≤ BASE_WEIGHTS d := by
  cases d <;> norm_num [BASE_WEIGHTS]

theorem mem_applicable_dims (req : MautReq) (roles : List String) (d : Dim) :
    d ∈ applicable_dims req roles ↔
      d = .interest ∨ d = .cost ∨ d = .popularity
      ∨ (d = .child ∧ req.flags.hasChild)
      ∨ (d = .pet ∧ req.flags.hasPets)
      ∨ (d = .dietary ∧ "halal" ∈ req.dietaryRestrictions ∧ "meal" ∈ roles)
      ∨ (d = .access ∧ req.flags.wheelchairAccessible) := by
  unfold applicable_dims
  split_ifs <;> cases d <;> simp_all [Finset.mem_insert]

theorem interest_mem_applicable (req : MautReq) (roles : List String) :
    Dim.interest ∈ applicable_dims req roles := by
  rw [mem_applicable_dims]; tauto

theorem weight_sum_pos (req : MautReq) (roles : List String) :
    0 < (applicable_dims req roles).sum BASE_WEIGHTS := by
  have h : BASE_WEIGHTS Dim.interest ≤ (applicable_dims req roles).sum BASE_WEIGHTS :=
    Finset.single_le_sum (fun d _ => base_weights_nonneg d) (interest_mem_applicable req roles)
  have h30 : (0 : ℚ) < BASE_WEIGHTS Dim.interest := by norm_num [BASE_WEIGHTS]
  linarith

theorem renorm_weights_nonneg (dims : Finset Dim) (d : Dim) :
    0 ≤ renorm_weights dims d := by
  unfold renorm_weights
  split_ifs with h1 h2
  · exact div_nonneg (base_weights_nonneg d) (le_of_lt h2)
  · exact le_refl 0
  · exact le_refl 0

theorem sum_renorm_weights (req : MautReq) (roles : List String) :
    (applicable_dims req roles).sum (renorm_weights (applicable_dims req roles)) = 1 := by
  have hpos := weight_sum_pos req roles
  have hcongr : ∀ d ∈ applicable_dims req roles,
      renorm_weights (applicable_dims req roles) d
        = BASE_WEIGHTS d / (applicable_dims req roles).sum BASE_WEIGHTS := by
    intro d hd
    unfold renorm_weights
    rw [if_pos hd, if_pos hpos]
  rw [Finset.sum_congr rfl hcongr, ← Finset.sum_div]
  exact div_self (ne_of_gt hpos)

theorem sum_univ_dim (f : Dim → ℚ) :
    Finset.univ.sum f
      = f .interest + f .cost + f .popularity + f .child + f .dietary + f .pet + f .access := by
  show List.sum (List.map f [Dim.interest, .cost, .popularity, .child, .dietary, .pet, .access]) = _
  simp [add_assoc]

theorem renorm_seven_term_sum (req : MautReq) (roles : List String) :
    renorm_weights (applicable_dims req roles) .interest
      + renorm_weights (applicable_dims req roles) .cost
      + renorm_weights (applicable_dims req roles) .popularity
      + renorm_weights (applicable_dims req roles) .child
      + renorm_weights (applicable_dims req roles) .dietary
      + renorm_weights (applicable_dims req roles) .pet
      + renorm_weights (applicable_dims req roles) .access = 1 := by
  have huniv : Finset.univ.sum (renorm_weights (applicable_dims req roles))
      = (applicable_dims req roles).sum (renorm_weights (applicable_dims req roles)) := by
    rw [← Finset.sum_subset (Finset.subset_univ _)]
    intro x _ hx
    unfold renorm_weights
    simp [hx]
  have h7 := sum_univ_dim (renorm_weights (applicable_dims req roles))
  rw [huniv, sum_renorm_weights] at h7
  linarith [h7]

theorem interest_match_score_bounds (poiThemes : Option (List String)) (selected : List String) :
    0 ≤ interest_match_score poiThemes selected
      ∧ interest_match_score poiThemes selected ≤ 1 := by
  cases poiThemes with
  | none => simp [interest_match_score]
  | some ts =>
    simp only [interest_match_score]
    split_ifs with h
    · norm_num
    · push_neg at h
      have hlen : 0 < (selected.length : ℚ) := by
        have := List.length_pos.mpr h.2
        exact_mod_cast this
      constructor
      · positivity
      · rw [div_le_one hlen]
        have h1 : (ts.toFinset ∩ selected.toFinset).card ≤ selected.toFinset.card :=
          Finset.card_le_card Finset.inter_subset_right
        have h2 := selected.toFinset_card_le
        have h3 : (ts.toFinset ∩ selected.toFinset).card ≤ selected.length := le_trans h1 h2
        exact_mod_cast h3

theorem budget_alignment_bounds (priceLevel : Option ℚ) (tier : String) :
    0 ≤ budget_alignment priceLevel tier ∧ budget_alignment priceLevel tier ≤ 1 := by
  cases priceLevel with
  | none => simp [budget_alignment]
  | some p =>
    simp only [budget_alignment]
    constructor
    · exact le_max_left 0 _
    · have h0 : 0 ≤ |p - budgetTarget tier| := abs_nonneg _
      rw [max_le_iff]
      constructor <;> linarith

theorem clamp01_bounds (r : ℝ) : 0 ≤ max 0 (min 1 r) ∧ max 0 (min 1 r) ≤ 1 := by
  refine ⟨le_max_left 0 _, ?_⟩
  rw [max_le_iff]
  exact ⟨by norm_num, min_le_left 1 r⟩

theorem popularity_score_bounds (rating : Option ℚ) (reviews : Option ℤ) :
    0 ≤ popularity_score rating reviews ∧ popularity_score rating reviews ≤ 1 := by
  have hrb : 0 ≤ (match rating with
      | none => (0 : ℝ)
      | some x => max 0 (min 1 ((x : ℝ) / 5)))
      ∧ (match rating with
      | none => (0 : ℝ)
      | some x => max 0 (min 1 ((x : ℝ) / 5))) ≤ 1 := by
    cases rating with
    | none => norm_num
    | some x => exact clamp01_bounds _
  obtain ⟨h1, h2⟩ := hrb
  cases reviews with
  | none =>
    simp only [popularity_score] at h1 h2 ⊢
    constructor <;> nlinarith
  | some rv =>
    simp only [popularity_score] at h1 h2 ⊢
    split_ifs with hneg
    · constructor <;> nlinarith
    · push_neg at hneg
      have hrv1 : (1 : ℤ) ≤ rv := hneg
      have hlog : 0 ≤ Real.logb 10 (1 + (rv : ℝ)) := by
        apply Real.logb_nonneg (by norm_num)
        have hc : (1 : ℝ) ≤ (rv : ℝ) := by exact_mod_cast hrv1
        linarith
      have hmin1 : min 1 (Real.logb 10 (1 + (rv : ℝ)) / 3) ≤ 1 := min_le_left _ _
      have hmin0 : 0 ≤ min 1 (Real.logb 10 (1 + (rv : ℝ)) / 3) := by
        rw [le_min_iff]
        refine ⟨by norm_num, by positivity⟩
      constructor <;> nlinarith

theorem dietary_score_bounds (req : MautReq) (row : MautRow) :
    0 ≤ dietary_score req row ∧ dietary_score req row ≤ 1 := by
  unfold dietary_score
  split_ifs <;> norm_num

theorem sInterest_bounds (req : MautReq) (row : MautRow) (selected : List String) :
    0 ≤ sInterest req row selected ∧ sInterest req row selected ≤ 1 := by
  unfold sInterest
  split_ifs
  · exact interest_match_score_bounds row.themes selected
  · norm_num

theorem sCost_bounds (req : MautReq) (row : MautRow) :
    0 ≤ sCost req row ∧ sCost req row ≤ 1 := by
  unfold sCost
  split_ifs
  · exact budget_alignment_bounds row.priceLevel req.budgetTier
  · norm_num

theorem sPop_bounds (req : MautReq) (row : MautRow) :
    0 ≤ sPop req row ∧ sPop req row ≤ 1 := by
  unfold sPop
  split_ifs
  · exact popularity_score_bounds row.reviewRating row.reviewCount
  · norm_num

theorem sChild_bounds (req : MautReq) (row : MautRow) :
    0 ≤ sChild req row ∧ sChild req row ≤ 1 := by
  unfold sChild
  split_ifs <;> norm_num

theorem sDiet_bounds (req : MautReq) (row : MautRow) :
    0 ≤ sDiet req row ∧ sDiet req row ≤ 1 := by
  unfold sDiet
  split_ifs
  · exact dietary_score_bounds req row
  · norm_num

theorem sPet_bounds (req : MautReq) (row : MautRow) :
    0 ≤ sPet req row ∧ sPet req row ≤ 1 := by
  unfold sPet
  split_ifs <;> norm_num

theorem sAccess_bounds (req : MautReq) (row : MautRow) :
    0 ≤ sAccess req row ∧ sAccess req row ≤ 1 := by
  unfold sAccess
  split_ifs <;> norm_num

/-- C5: for every request and catalog row the MAUT utility of `score_row`
lies in [0, 1]; the renormalised weights over the applicable dimensions sum
to 1 and every per-dimension score lies in [0, 1]. -/
theorem score_row_unit_interval (req : MautReq) (row : MautRow) (selected : List String) :
    (applicable_dims req row.poiRoles).sum
        (renorm_weights (applicable_dims req row.poiRoles)) = 1
    ∧ 0 ≤ score_row req row selected ∧ score_row req row selected ≤ 1
    ∧ (0 ≤ sInterest req row selected ∧ sInterest req row selected ≤ 1)
    ∧ (0 ≤ sCost req row ∧ sCost req row ≤ 1)
    ∧ (0 ≤ sPop req row ∧ sPop req row ≤ 1)
    ∧ (0 ≤ sChild req row ∧ sChild req row ≤ 1)
    ∧ (0 ≤ sDiet req row ∧ sDiet req row ≤ 1)
    ∧ (0 ≤ sPet req row ∧ sPet req row ≤ 1)
    ∧ (0 ≤ sAccess req row ∧ sAccess req row ≤ 1) := by
  obtain ⟨i0, i1⟩ := sInterest_bounds req row selected
  obtain ⟨c0, c1⟩ := sCost_bounds req row
  obtain ⟨p0, p1⟩ := sPop_bounds req row
  obtain ⟨k0, k1⟩ := sChild_bounds req row
  obtain ⟨d0, d1⟩ := sDiet_bounds req row
  obtain ⟨e0, e1⟩ := sPet_bounds req row
  obtain ⟨a0, a1⟩ := sAccess_bounds req row
  have wI := renorm_weights_nonneg (applicable_dims req row.poiRoles) .interest
  have wC := renorm_weights_nonneg (applicable_dims req row.poiRoles) .cost
  have wP := renorm_weights_nonneg (applicable_dims req row.poiRoles) .popularity
  have wK := renorm_weights_nonneg (applicable_dims req row.poiRoles) .child
  have wD := renorm_weights_nonneg (applicable_dims req row.poiRoles) .dietary
  have wE := renorm_weights_nonneg (applicable_dims req row.poiRoles) .pet
  have wA := renorm_weights_nonneg (applicable_dims req row.poiRoles) .access
  have hsum7 := renorm_seven_term_sum req row.poiRoles
  have hsum7R : (renorm_weights (applicable_dims req row.poiRoles) .interest : ℝ)
      + (renorm_weights (applicable_dims req row.poiRoles) .cost : ℝ)
      + (renorm_weights (applicable_dims req row.poiRoles) .popularity : ℝ)
      + (renorm_weights (applicable_dims req row.poiRoles) .child : ℝ)
      + (renorm_weights (applicable_dims req row.poiRoles) .dietary : ℝ)
      + (renorm_weights (applicable_dims req row.poiRoles) .pet : ℝ)
      + (renorm_weights (applicable_dims req row.poiRoles) .access : ℝ) = 1 := by
    exact_mod_cast hsum7
  refine ⟨sum_renorm_weights req row.poiRoles, ?_, ?_, ⟨i0, i1⟩, ⟨c0, c1⟩, ⟨p0, p1⟩,
    ⟨k0, k1⟩, ⟨d0, d1⟩, ⟨e0, e1⟩, ⟨a0, a1⟩⟩
  · unfold score_row
    have t1 : (0 : ℝ) ≤ (renorm_weights (applicable_dims req row.poiRoles) .interest : ℝ)
        * (sInterest req row selected : ℝ) :=
      mul_nonneg (by exact_mod_cast wI) (by exact_mod_cast i0)
    have t2 : (0 : ℝ) ≤ (renorm_weights (applicable_dims req row.poiRoles) .cost : ℝ)
        * (sCost req row : ℝ) :=
      mul_nonneg (by exact_mod_cast wC) (by exact_mod_cast c0)
    have t3 : (0 : ℝ) ≤ (renorm_weights (applicable_dims req row.poiRoles) .popularity : ℝ)
        * sPop req row := by
      apply mul_nonneg
      · exact_mod_cast wP
      · exact p0
    have t4 : (0 : ℝ) ≤ (renorm_weights (applicable_dims req row.poiRoles) .child : ℝ)
        * (sChild req row : ℝ) :=
      mul_nonneg (by exact_mod_cast wK) (by exact_mod_cast k0)
    have t5 : (0 : ℝ) ≤ (renorm_weights (applicable_dims req row.poiRoles) .dietary : ℝ)
        * (sDiet req row : ℝ) :=
      mul_nonneg (by exact_mod_cast wD) (by exact_mod_cast d0)
    have t6 : (0 : ℝ) ≤ (renorm_weights (applicable_dims req row.poiRoles) .pet : ℝ)
        * (sPet req row : ℝ) :=
      mul_nonneg (by exact_mod_cast wE) (by exact_mod_cast e0)
    have t7 : (0 : ℝ) ≤ (renorm_weights (applicable_dims req row.poiRoles) .access : ℝ)
        * (sAccess req row : ℝ) :=
      mul_nonneg (by exact_mod_cast wA) (by exact_mod_cast a0)
    linarith
  · unfold score_row
    have u1 : (renorm_weights (applicable_dims req row.poiRoles) .interest : ℝ)
        * (sInterest req row selected : ℝ)
        ≤ (renorm_weights (applicable_dims req row.poiRoles) .interest : ℝ) := by
      apply mul_le_of_le_one_right
      · exact_mod_cast wI
      · exact_mod_cast i1
    have u2 : (renorm_weights (applicable_dims req row.poiRoles) .cost : ℝ)
        * (sCost req row : ℝ)
        ≤ (renorm_weights (applicable_dims req row.poiRoles) .cost : ℝ) := by
      apply mul_le_of_le_one_right
      · exact_mod_cast wC
      · exact_mod_cast c1
    have u3 : (renorm_weights (applicable_dims req row.poiRoles) .popularity : ℝ)
        * sPop req row
        ≤ (renorm_weights (applicable_dims req row.poiRoles) .popularity : ℝ) := by
      apply mul_le_of_le_one_right
      · exact_mod_cast wP
      · exact p1
    have u4 : (renorm_weights (applicable_dims req row.poiRoles) .child : ℝ)
        * (sChild req row : ℝ)
        ≤ (renorm_weights (applicable_dims req row.poiRoles) .child : ℝ) := by
      apply mul_le_of_le_one_right
      · exact_mod_cast wK
      · exact_mod_cast k1
    have u5 : (renorm_weights (applicable_dims req row.poiRoles) .dietary : ℝ)
        * (sDiet req row : ℝ)
        ≤ (renorm_weights (applicable_dims req row.poiRoles) .dietary : ℝ) := by
      apply mul_le_of_le_one_right
      · exact_mod_cast wD
      · exact_mod_cast d1
    have u6 : (renorm_weights (applicable_dims req row.poiRoles) .pet : ℝ)
        * (sPet req row : ℝ)
        ≤ (renorm_weights (applicable_dims req row.poiRoles) .pet : ℝ) := by
      apply mul_le_of_le_one_right
      · exact_mod_cast wE
      · exact_mod_cast e1
    have u7 : (renorm_weights (applicable_dims req row.poiRoles) .access : ℝ)
        * (sAccess req row : ℝ)
        ≤ (renorm_weights (applicable_dims req row.poiRoles) .access : ℝ) := by
      apply mul_le_of_le_one_right
      · exact_mod_cast wA
      · exact_mod_cast a1
    linarith

/-! ### C4: applicable scoring dimensions -/

/-- C4 counterexample: a request with `is_muslim = true` and no dietary
restrictions scoring a meal-role POI does not get the dietary dimension,
contradicting the claim that `dietary` applies exactly when `is_muslim` is
set and the POI has a meal role. -/
theorem c4_counterexample :
    c4req.flags.isMuslim = true ∧ "meal" ∈ ["meal"]
      ∧ Dim.dietary ∉ applicable_dims c4req ["meal"] := by
  decide

/-- C4 (amended): the applicable set is {interest, cost, popularity} always,
plus child exactly when `has_child`, pet exactly when `has_pets`, access
exactly when `wheelchair_accessible`, and dietary exactly when `"halal"` is
among the request's dietary restrictions and the POI has a meal role (the
code keys dietary on the restriction list, not on `is_muslim`). -/
theorem c4_applicable_dims_amended (req : MautReq) (roles : List String) :
    Dim.interest ∈ applicable_dims req roles
    ∧ Dim.cost ∈ applicable_dims req roles
    ∧ Dim.popularity ∈ applicable_dims req roles
    ∧ (Dim.child ∈ applicable_dims req roles ↔ req.flags.hasChild)
    ∧ (Dim.pet ∈ applicable_dims req roles ↔ req.flags.hasPets)
    ∧ (Dim.dietary ∈ applicable_dims req roles
        ↔ "halal" ∈ req.dietaryRestrictions ∧ "meal" ∈ roles)
    ∧ (Dim.access ∈ applicable_dims req roles ↔ req.flags.wheelchairAccessible) := by
  refine ⟨?_, ?_, ?_, ?_, ?_, ?_, ?_⟩ <;> rw [mem_applicable_dims] <;> simp

/-! ### C9: quota monotonicity -/

/-- C9: for day counts `1 ≤ d1 ≤ d2` the attraction quota of
`role_keep_counts` is weakly monotone. -/
theorem role_keep_counts_attraction_mono (d1 d2 : ℤ) (h1 : 1 ≤ d1) (h2 : d1 ≤ d2) :
    (role_keep_counts (some d1)).attraction ≤ (role_keep_counts (some d2)).attraction := by
  have hne1 : d1 ≠ 0 := by omega
  have hne2 : d2 ≠ 0 := by omega
  unfold role_keep_counts truthyInt
  simp only [hne1, hne2, if_false, if_neg]
  have hm1 : max 1 d1 = d1 := max_eq_right h1
  have hm2 : max 1 d2 = d2 := max_eq_right (by omega)
  rw [hm1, hm2]
  exact min_le_min (by linarith) le_rfl

/-- C9 witness: concrete application at `d1 = 2 ≤ d2 = 5`. -/
theorem role_keep_counts_attraction_mono_witness :
    (1 ≤ (2 : ℤ) ∧ (2 : ℤ) ≤ 5)
      ∧ (role_keep_counts (some 2)).attraction ≤ (role_keep_counts (some 5)).attraction :=
  ⟨⟨by norm_num, by norm_num⟩, role_keep_counts_attraction_mono 2 5 (by norm_num) (by norm_num)⟩

/-! ### C7: resolved trip duration -/

/-- C7 counterexample: an explicit `num_days = 31` resolves to 31, outside
the claimed interval [1, 30]. -/
theorem c7_counterexample :
    calculate_num_days c7parse c7payload = 31
      ∧ ¬ (calculate_num_days c7parse c7payload ≤ 30) := by
  constructor
  · rfl
  · decide

/-- C7 (amended): the resolved `num_days` is always at least 1 (explicit
values and date spans are clamped with `max(1, ·)` and the default is 3), but
no upper bound of 30 is enforced. -/
theorem calculate_num_days_ge_one (parseTs : PyStr → Option ℤ)
    (payload : FrontendPayload) : 1 ≤ calculate_num_days parseTs payload := by
  unfold calculate_num_days
  repeat' split
  all_goals first
    | exact le_max_left 1 _
    | norm_num

/-! ### C8: kept open-hour windows -/

/-- C8 counterexample: the Monday label `"9 am-10 am"` intersected with the
default window `(600, 1320)` yields the zero-length window `(600, 600)`,
which the Builder keeps rather than discards. -/
theorem c8_counterexample :
    (600, 600) ∈ extract_windows_for_date c8oh 0 (600, 1320)
      ∧ ¬ ((600 : ℤ) < 600) := by
  decide

/-- Invariant of the per-label folding step: appended intersections satisfy
`fst ≤ snd`. -/
theorem extractWindowStep_inv (dw : ℤ × ℤ) (acc : List (ℤ × ℤ) × Bool)
    (lab : String) (hacc : ∀ w ∈ acc.1, w.1 ≤ w.2) :
    ∀ w ∈ (extractWindowStep dw acc lab).1, w.1 ≤ w.2 := by
  unfold extractWindowStep
  split_ifs with h1
  · exact hacc
  · split
    · exact hacc
    · split_ifs with h2
      · intro w hw
        rcases List.mem_append.mp hw with h | h
        · exact hacc w h
        · rcases List.mem_singleton.mp h with rfl
          exact h2
      · exact hacc

/-- The fold over labels preserves the window invariant. -/
theorem extractWindows_fold_inv (dw : ℤ × ℤ) (raw : List String) :
    ∀ acc : List (ℤ × ℤ) × Bool, (∀ w ∈ acc.1, w.1 ≤ w.2) →
      ∀ w ∈ (raw.foldl (extractWindowStep dw) acc).1, w.1 ≤ w.2 := by
  induction raw with
  | nil => intro acc hacc; exact hacc
  | cons lab rest ih =>
    intro acc hacc
    exact ih _ (extractWindowStep_inv dw acc lab hacc)

/-- C8 (amended): when the default window is well-formed, every window the
Builder keeps satisfies `open ≤ close`; intersections are kept whenever they
are non-negative in length, so zero-length windows survive (only negative
intersections are discarded). -/
theorem extract_windows_nonneg_length (openHours : Option (List (String × List String)))
    (date : ℤ) (dw : ℤ × ℤ) (hdw : dw.1 ≤ dw.2) :
    ∀ w ∈ extract_windows_for_date openHours date dw, w.1 ≤ w.2 := by
  unfold extract_windows_for_date
  split
  · intro w hw
    rcases List.mem_singleton.mp hw with rfl
    exact hdw
  · split_ifs with h0
    · intro w hw
      rcases List.mem_singleton.mp hw with rfl
      exact hdw
    · split
      · intro w hw
        rcases List.mem_singleton.mp hw with rfl
        exact hdw
      · split_ifs with h1 h2 h3
        · intro w hw
          rcases List.mem_singleton.mp hw with rfl
          exact hdw
        · exact extractWindows_fold_inv dw _ ([], false) (by simp)
        · intro w hw
          simp at hw
        · intro w hw
          rcases List.mem_singleton.mp hw with rfl
          exact hdw

/-- C8 witness: the amended statement applied at the concrete open hours of
the counterexample. -/
theorem extract_windows_nonneg_length_witness :
    ((600 : ℤ), (1320 : ℤ)).1 ≤ ((600 : ℤ), (1320 : ℤ)).2
      ∧ ∀ w ∈ extract_windows_for_date c8oh 0 (600, 1320), w.1 ≤ w.2 :=
  ⟨by norm_num, extract_windows_nonneg_length c8oh 0 (600, 1320) (by norm_num)⟩

/-! ### C6: same-theme arc penalty -/

/-- C6 counterexample: both nodes have primary theme `"nature"` (defined and
equal), yet the arc cost carries no 15-minute penalty because the code
compares the raw first theme-list entries `"park"` and `"nature"`. -/
theorem c6_counterexample :
    pick_theme ["park", "nature"] ["nature"] = some "nature"
      ∧ pick_theme ["nature"] ["nature"] = some "nature"
      ∧ transit_cb c6nodes c6travel 1 2 = 0
      ∧ (0 : ℤ) ≠ 0 + 15 := by
  refine ⟨by decide, by decide, by decide, by decide⟩

/-- C6 (amended): the arc cost is travel plus origin service plus a 40
meal-to-meal penalty plus a 15 same-theme penalty applied exactly when the
two raw theme lists have equal (defined) first elements; the
selected-themes-based primary theme is computed during node construction but
never used by the cost callback. -/
theorem transit_cb_characterisation (nodes : List Node) (travel : List (List ℤ))
    (i j : ℕ) :
    transit_cb nodes travel i j
      = (travel.getD i []).getD j 0 + (nodes.getD i dummyNode).service
        + (if (nodes.getD i dummyNode).role = "meal"
              ∧ (nodes.getD j dummyNode).role = "meal" then 40 else 0)
        + (if (((nodes.getD i dummyNode).themes.getD []).head?).isSome
              ∧ ((nodes.getD i dummyNode).themes.getD []).head?
                = ((nodes.getD j dummyNode).themes.getD []).head? then 15 else 0) := by
  unfold transit_cb
  generalize (nodes.getD i dummyNode).themes.getD [] = tA
  generalize (nodes.getD j dummyNode).themes.getD [] = tB
  rcases tA with _ | ⟨a, as⟩ <;> rcases tB with _ | ⟨b, bs⟩ <;> simp [List.headD]

/-! ### C1: per-day meal-count constraint -/

/-- C1 counterexample: with two meal POIs replicated over two days the solver
imposes the end-of-route meal range [2, 2] on day 0, not the claimed
[min(1, available), 3] = [1, 3]. -/
theorem c1_counterexample :
    runMealsRequired c1nodes 2 = 2
      ∧ mealEndConstraint c1nodes (runMealsRequired c1nodes 2) 0 = some (2, 2)
      ∧ some ((2 : ℕ), (2 : ℕ)) ≠ some (min 1 (availableMeals c1nodes 0), 3) := by
  refine ⟨by decide, by decide, by decide⟩

/-- The global meal requirement computed by `run_cvrptw` never exceeds 2. -/
theorem runMealsRequired_le_two (nodes : List Node) (v : ℕ) :
    runMealsRequired nodes v ≤ 2 := by
  unfold runMealsRequired
  split
  · exact min_le_left 2 _
  · norm_num

/-- C1 (amended): whenever the solver imposes an end-of-route meal range on a
day-vehicle it is `[min(meals_required, available_v), min(3, available_v)]`
with `meals_required = min(2, meal_nodes // num_days)` (0 when no meal nodes
exist, in which case — as when the lower bound degenerates to 0 — no range is
imposed); the bounds satisfy `1 ≤ lo ≤ 2` and `lo ≤ hi ≤ 3`. -/
theorem mealEndConstraint_characterisation (nodes : List Node) (V : ℕ) (v : ℤ)
    (lo hi : ℕ)
    (h : mealEndConstraint nodes (runMealsRequired nodes V) v = some (lo, hi)) :
    lo = min (runMealsRequired nodes V) (availableMeals nodes v)
    ∧ hi = min 3 (availableMeals nodes v)
    ∧ 1 ≤ lo ∧ lo ≤ 2 ∧ lo ≤ hi ∧ hi ≤ 3 := by
  have hr2 := runMealsRequired_le_two nodes V
  unfold mealEndConstraint at h
  split_ifs at h with h1 h2
  · injection h with h'
    obtain ⟨rfl, rfl⟩ := Prod.mk.injEq .. ▸ Prod.mk.inj h'
    refine ⟨rfl, rfl, by omega, ?_, ?_, min_le_left 3 _⟩
    · exact le_trans (min_le_left _ _) hr2
    · exact le_min (by omega) (min_le_right _ _)

/-- C1 witness: the amended characterisation applied at the concrete
two-day, four-meal-node instance. -/
theorem mealEndConstraint_characterisation_witness :
    mealEndConstraint c1nodes (runMealsRequired c1nodes 2) 0 = some (2, 2)
      ∧ ((2 : ℕ) = min (runMealsRequired c1nodes 2) (availableMeals c1nodes 0)
        ∧ (2 : ℕ) = min 3 (availableMeals c1nodes 0)
        ∧ 1 ≤ (2 : ℕ) ∧ (2 : ℕ) ≤ 2 ∧ (2 : ℕ) ≤ (2 : ℕ) ∧ (2 : ℕ) ≤ 3) :=
  ⟨by decide, mealEndConstraint_characterisation c1nodes 2 0 2 2 (by decide)⟩

/-! ### C3: first and last stops of a day -/

/-- C3 counterexample: a returned plan with a non-empty day whose first stop
is the visited attraction, not a depot visit (the assembly skips the route
opening depot). -/
theorem c3_counterexample :
    (solve_cvrptw c3daySpecs c3nodes (some c3sol)).days ≠ []
      ∧ (((solve_cvrptw c3daySpecs c3nodes (some c3sol)).days.headD dummyDay).stops.headD
          dummyStop).role = "attraction"
      ∧ "attraction" ≠ "depot" ∧ "attraction" ≠ "hotel" := by
  refine ⟨by decide, by decide, by decide, by decide⟩

/-- C3 (amended): every day of a returned plan has a non-empty stop list
whose last stop is a depot visit (the hotel-return stop carrying the depot
node's id, emitted with role `"hotel"`); the first stop is the day's first
visited POI because the route-opening depot is skipped, so it is a depot
visit only for days without POI visits. -/
theorem solve_cvrptw_last_stop_depot (daySpecs : List DaySpec) (nodes : List Node)
    (sol : Option SolverSolution) (day : DayPlan)
    (hday : day ∈ (solve_cvrptw daySpecs nodes sol).days) :
    day.stops ≠ []
    ∧ (day.stops.getLastD dummyStop).role = "hotel"
    ∧ (day.stops.getLastD dummyStop).poiId = (nodes.getD 0 dummyNode).poiId := by
  unfold solve_cvrptw at hday
  split_ifs at hday with h1 h2
  · simp at hday
  · simp at hday
  · split at hday
    · simp at hday
    · next s =>
      simp only [assembleDays, List.mem_map] at hday
      obtain ⟨p, _, rfl⟩ := hday
      simp only [buildDay]
      refine ⟨by simp, ?_, ?_⟩
      · rw [List.getLastD_concat]
        rfl
      · rw [List.getLastD_concat]
        rfl

/-- C3 witness: the amended statement at the concrete one-day instance. -/
theorem solve_cvrptw_last_stop_depot_witness :
    ((solve_cvrptw c3daySpecs c3nodes (some c3sol)).days.headD dummyDay)
        ∈ (solve_cvrptw c3daySpecs c3nodes (some c3sol)).days
      ∧ (((solve_cvrptw c3daySpecs c3nodes (some c3sol)).days.headD dummyDay).stops ≠ []
        ∧ ((((solve_cvrptw c3daySpecs c3nodes (some c3sol)).days.headD dummyDay).stops.getLastD
            dummyStop).role = "hotel")
        ∧ ((((solve_cvrptw c3daySpecs c3nodes (some c3sol)).days.headD dummyDay).stops.getLastD
            dummyStop).poiId = (c3nodes.getD 0 dummyNode).poiId)) :=
  ⟨by decide, solve_cvrptw_last_stop_depot c3daySpecs c3nodes (some c3sol) _ (by decide)⟩

/-! ### C10: failure semantics of `run_cvrptw` -/

/-- Helper for C10: `solve_cvrptw` reports a note whenever it returns no
days. -/
theorem solve_cvrptw_empty_days (daySpecs : List DaySpec) (nodes : List Node)
    (sol : Option SolverSolution) :
    (solve_cvrptw daySpecs nodes sol).days = []
      → ((solve_cvrptw daySpecs nodes sol).note).isSome := by
  unfold solve_cvrptw
  split_ifs with h1 h2
  · intro _; rfl
  · intro _; rfl
  · cases sol with
    | none => intro _; rfl
    | some s =>
      intro h
      exfalso
      apply h1
      simp only [] at h
      have hlen := congrArg List.length h
      simp only [assembleDays, List.length_map, List.length_zip,
        List.length_range, min_self, List.length_nil] at hlen
      exact List.length_eq_zero.mp hlen

/-- C10: `run_cvrptw` (a total function of its oracles in this embedding —
every raised exception is caught) always returns a result whose `days` field
is a list, and whenever that list is empty the result carries a textual
note. -/
theorem run_cvrptw_empty_days_has_note (env : CvrptwEnv SolverSolution)
    (mo : MautOutput) (hotel : Hotel) (pacing : String)
    (mandatory : Option (List (String × MandSpec))) :
    (run_cvrptw env mo hotel pacing mandatory).days = []
      → ((run_cvrptw env mo hotel pacing mandatory).note).isSome := by
  unfold run_cvrptw
  rcases build_problem env mo hotel pacing mandatory with e | ⟨daySpecs, nodes, travel⟩
  · intro _; rfl
  · dsimp only
    split_ifs with h1 h2
    · intro _; rfl
    · intro _; rfl
    · exact solve_cvrptw_empty_days daySpecs nodes _

/-! ### C2: searchsorted and roulette-wheel selection lemmas -/

theorem ssAux_le_of_found (f : ℕ → ℝ) (r : ℝ) (fuel : ℕ) :
    ∀ i k, i ≤ k → k < i + fuel → r ≤ f k → ssAux f r fuel i ≤ k := by
  induction fuel with
  | zero =>
    intro i k hik hk _
    unfold ssAux
    omega
  | succ fuel ih =>
    intro i k hik hk hfk
    unfold ssAux
    split_ifs with hi
    · exact hik
    · have hik2 : i + 1 ≤ k := by
        rcases Nat.eq_or_lt_of_le hik with rfl | h
        · exact absurd hfk hi
        · exact h
      exact ih (i + 1) k hik2 (by omega) hfk

theorem ssAux_hit (f : ℕ → ℝ) (r : ℝ) (fuel : ℕ) :
    ∀ i, ssAux f r fuel i < i + fuel →
      r ≤ f (ssAux f r fuel i) ∧ i ≤ ssAux f r fuel i
        ∧ ∀ m, i ≤ m → m < ssAux f r fuel i → f m < r := by
  induction fuel with
  | zero =>
    intro i h
    unfold ssAux at h
    omega
  | succ fuel ih =>
    intro i h
    rw [ssAux] at h ⊢
    split_ifs at h ⊢ with hi
    · exact ⟨hi, le_rfl, by omega⟩
    · obtain ⟨h1, h2, h3⟩ := ih (i + 1) (by omega)
      refine ⟨h1, by omega, ?_⟩
      intro m him hm
      rcases Nat.eq_or_lt_of_le him with rfl | hlt
      · exact lt_of_not_le hi
      · exact h3 m hlt hm

theorem nextCity_lt_and_unvisited (ph heur : ℕ → ℕ → ℝ) (n : ℕ)
    (visited : ℕ → Bool) (cur : ℕ) (alpha beta r : ℝ)
    (hnn : ∀ j, j < n → 0 ≤ probsRaw ph heur visited cur alpha beta j)
    (hex : ∃ j, j < n ∧ 0 < probsRaw ph heur visited cur alpha beta j)
    (hr0 : 0 < r) (hr1 : r < 1) :
    nextCity ph heur n visited cur alpha beta r < n
      ∧ visited (nextCity ph heur n visited cur alpha beta r) = false := by
  obtain ⟨j0, hj0n, hj0pos⟩ := hex
  have hn0 : 0 < n := by omega
  have htot : 0 < probsTotal n (probsRaw ph heur visited cur alpha beta) := by
    have hle : probsRaw ph heur visited cur alpha beta j0
        ≤ probsTotal n (probsRaw ph heur visited cur alpha beta) :=
      Finset.single_le_sum (fun i hi => hnn i (Finset.mem_range.mp hi))
        (Finset.mem_range.mpr hj0n)
    linarith
  have hcp : calcProbs ph heur n visited cur alpha beta
      = fun j => probsRaw ph heur visited cur alpha beta j
        / probsTotal n (probsRaw ph heur visited cur alpha beta) := by
    unfold calcProbs
    rw [if_pos htot]
  have hlast : csum (calcProbs ph heur n visited cur alpha beta) (n - 1) = 1 := by
    rw [hcp]
    unfold csum
    rw [← Finset.sum_div]
    have hrw : n - 1 + 1 = n := by omega
    rw [hrw]
    exact div_self (ne_of_gt htot)
  have hfound : nextCity ph heur n visited cur alpha beta r ≤ n - 1 := by
    unfold nextCity searchsorted
    apply ssAux_le_of_found _ _ _ _ _ (Nat.zero_le _) (by omega)
    rw [hlast]
    linarith
  have hklt : nextCity ph heur n visited cur alpha beta r < n := by omega
  obtain ⟨hhit, -, hmin⟩ := ssAux_hit
    (csum (calcProbs ph heur n visited cur alpha beta)) r n 0
    (by simpa using hklt)
  have hss : ssAux (csum (calcProbs ph heur n visited cur alpha beta)) r n 0
      = nextCity ph heur n visited cur alpha beta r := rfl
  rw [hss] at hhit hmin
  refine ⟨hklt, ?_⟩
  by_contra hvis
  have hvis2 : visited (nextCity ph heur n visited cur alpha beta r) = true := by
    revert hvis
    cases visited (nextCity ph heur n visited cur alpha beta r) <;> simp
  have hp0 : probsRaw ph heur visited cur alpha beta
      (nextCity ph heur n visited cur alpha beta r) = 0 := by
    unfold probsRaw
    rw [if_pos hvis2]
  rcases hk : nextCity ph heur n visited cur alpha beta r with _ | k
  · rw [hk] at hhit hp0
    have hpc : calcProbs ph heur n visited cur alpha beta 0 = 0 := by
      rw [hcp]
      simp only [hp0]
      exact zero_div _
    have hc0 : csum (calcProbs ph heur n visited cur alpha beta) 0
        = calcProbs ph heur n visited cur alpha beta 0 := by
      unfold csum
      simp
    rw [hc0, hpc] at hhit
    linarith
  · rw [hk] at hhit hp0 hmin
    have hprev := hmin k (Nat.zero_le _) (by omega)
    have hpc : calcProbs ph heur n visited cur alpha beta (k + 1) = 0 := by
      rw [hcp]
      simp only [hp0]
      exact zero_div _
    have hstep : csum (calcProbs ph heur n visited cur alpha beta) (k + 1)
        = csum (calcProbs ph heur n visited cur alpha beta) k
          + calcProbs ph heur n visited cur alpha beta (k + 1) := by
      unfold csum
      rw [Finset.sum_range_succ]
    rw [hpc, add_zero] at hstep
    rw [hstep] at hhit
    linarith

/-! ### C2: ant-construction invariants -/

theorem heuristicOf_nonneg (m : ℕ → ℕ → ℝ) (i j : ℕ) : 0 ≤ heuristicOf m i j := by
  unfold heuristicOf
  split_ifs with h
  · positivity
  · exact le_refl 0

theorem legDist_pos (heur : ℕ → ℕ → ℝ) (i j : ℕ) : 0 < legDist heur i j := by
  unfold legDist
  split_ifs with h
  · positivity
  · norm_num

theorem constructStep_inv (ph heur : ℕ → ℕ → ℝ) (n : ℕ) (alpha beta r : ℝ)
    (st : ConsState) (hph : PhPos n ph) (hheur : HeurPos n heur)
    (hheurnn : ∀ i j, 0 ≤ heur i j) (hinv : ConsInv n st)
    (hlen : st.path.length < n) (hr0 : 0 < r) (hr1 : r < 1) :
    ∃ st2, constructStep ph heur n alpha beta r st = some st2 ∧ ConsInv n st2
      ∧ st2.path.length = st.path.length + 1 ∧ st.dist ≤ st2.dist := by
  obtain ⟨hnd, hbound, hvis, hcur, hdist⟩ := hinv
  have hcurn : st.current < n := hbound _ hcur
  have hviscur : st.visited st.current = true := (hvis _).mpr hcur
  have hex : ∃ j, j < n ∧ 0 < probsRaw ph heur st.visited st.current alpha beta j := by
    by_contra hall
    push_neg at hall
    have hsub : ∀ j < n, st.visited j = true := by
      intro j hj
      by_contra hjv
      have hjv2 : st.visited j = false := by
        revert hjv
        cases st.visited j <;> simp
      apply absurd (hall j hj)
      push_neg
      unfold probsRaw
      rw [if_neg (by simp [hjv2])]
      have h1 : 0 < ph st.current j ^ alpha := Real.rpow_pos_of_pos (hph _ _ hcurn hj) _
      have hne : st.current ≠ j := by
        intro hc
        rw [← hc] at hjv2
        rw [hviscur] at hjv2
        simp at hjv2
      have h2 : 0 < heur st.current j ^ beta :=
        Real.rpow_pos_of_pos (hheur _ _ hcurn hj hne) _
      positivity
    have hrange : List.range n ⊆ st.path := by
      intro x hx
      exact (hvis x).mp (hsub x (List.mem_range.mp hx))
    have hperm := (List.nodup_range n).subperm hrange
    have := hperm.length_le
    simp at this
    omega
  have hnn : ∀ j, j < n → 0 ≤ probsRaw ph heur st.visited st.current alpha beta j := by
    intro j hj
    unfold probsRaw
    split_ifs with hv
    · exact le_refl 0
    · have h1 : 0 ≤ ph st.current j ^ alpha :=
        Real.rpow_nonneg (le_of_lt (hph _ _ hcurn hj)) _
      have h2 : 0 ≤ heur st.current j ^ beta := Real.rpow_nonneg (hheurnn _ _) _
      positivity
  obtain ⟨hklt, hkvis⟩ := nextCity_lt_and_unvisited ph heur n st.visited st.current
    alpha beta r hnn hex hr0 hr1
  have hknotmem : nextCity ph heur n st.visited st.current alpha beta r ∉ st.path := by
    intro hmem
    rw [(hvis _).mpr hmem] at hkvis
    simp at hkvis
  unfold constructStep
  rw [if_pos hklt]
  refine ⟨_, rfl, ⟨?_, ?_, ?_, ?_, ?_⟩, by simp, ?_⟩
  · rw [List.nodup_append]
    exact ⟨hnd, List.nodup_singleton _, by simpa using hknotmem⟩
  · intro x hx
    rcases List.mem_append.mp hx with h | h
    · exact hbound x h
    · rcases List.mem_singleton.mp h with rfl
      exact hklt
  · intro x
    constructor
    · intro hx
      by_cases hxk : x = nextCity ph heur n st.visited st.current alpha beta r
      · subst hxk
        exact List.mem_append_right _ (List.mem_singleton.mpr rfl)
      · simp only [if_neg hxk] at hx
        exact List.mem_append_left _ ((hvis x).mp hx)
    · intro hx
      rcases List.mem_append.mp hx with h | h
      · by_cases hxk : x = nextCity ph heur n st.visited st.current alpha beta r
        · simp [hxk]
        · simp only [if_neg hxk]
          exact (hvis x).mpr h
      · rcases List.mem_singleton.mp h with rfl
        simp
  · exact List.mem_append_right _ (List.mem_singleton.mpr rfl)
  · have := legDist_pos heur st.current (nextCity ph heur n st.visited st.current alpha beta r)
    simp only []
    linarith
  · have := legDist_pos heur st.current (nextCity ph heur n st.visited st.current alpha beta r)
    simp only []
    linarith

theorem constructAux_inv (ph heur : ℕ → ℕ → ℝ) (n : ℕ) (alpha beta : ℝ)
    (draw : ℕ → ℝ) (hph : PhPos n ph) (hheur : HeurPos n heur)
    (hheurnn : ∀ i j, 0 ≤ heur i j)
    (hdraw : ∀ s, 0 < draw s ∧ draw s < 1) :
    ∀ (steps : List ℕ) (st : ConsState), ConsInv n st
      → st.path.length + steps.length = n →
      ∃ st2, constructAux ph heur n alpha beta draw steps st = some st2
        ∧ ConsInv n st2 ∧ st2.path.length = n ∧ st.dist ≤ st2.dist := by
  intro steps
  induction steps with
  | nil =>
    intro st hinv hlen
    refine ⟨st, rfl, hinv, by simpa using hlen, le_rfl⟩
  | cons s rest ih =>
    intro st hinv hlen
    obtain ⟨st2, hst2, hinv2, hlen2, hdist2⟩ := constructStep_inv ph heur n alpha beta
      (draw s) st hph hheur hheurnn hinv (by simp at hlen; omega)
      (hdraw s).1 (hdraw s).2
    obtain ⟨st3, hst3, hinv3, hlen3, hdist3⟩ := ih st2 hinv2 (by simp at hlen ⊢; omega)
    refine ⟨st3, ?_, hinv3, hlen3, le_trans hdist2 hdist3⟩
    unfold constructAux
    rw [hst2]
    exact hst3

theorem constructSolution_perm (ph heur : ℕ → ℕ → ℝ) (n : ℕ) (start : ℕ)
    (alpha beta : ℝ) (draw : ℕ → ℝ) (hn : 0 < n) (hstart : start < n)
    (hph : PhPos n ph) (hheur : HeurPos n heur) (hheurnn : ∀ i j, 0 ≤ heur i j)
    (hdraw : ∀ s, 0 < draw s ∧ draw s < 1) :
    ∃ p d, constructSolution ph heur n start alpha beta draw = some (p, d)
      ∧ p.Perm (List.range n) ∧ 0 < d := by
  have hinv0 : ConsInv n
      { visited := fun j => j == start, current := start, path := [start], dist := 0 } := by
    refine ⟨List.nodup_singleton _, ?_, ?_, List.mem_singleton.mpr rfl, le_refl 0⟩
    · intro x hx
      rcases List.mem_singleton.mp hx with rfl
      exact hstart
    · intro x
      simp [beq_iff_eq]
  obtain ⟨st2, hst2, hinv2, hlen2, hdist2⟩ := constructAux_inv ph heur n alpha beta draw
    hph hheur hheurnn hdraw ((List.range n).drop 1)
    { visited := fun j => j == start, current := start, path := [start], dist := 0 }
    hinv0 (by simp; omega)
  obtain ⟨hnd, hbound, -, -, -⟩ := hinv2
  have hperm : st2.path.Perm (List.range n) := by
    have hsub : st2.path ⊆ List.range n := by
      intro x hx
      exact List.mem_range.mpr (hbound x hx)
    exact (hnd.subperm hsub).perm_of_length_le (by simp [hlen2])
  refine ⟨st2.path, st2.dist + legDist heur st2.current start, ?_, hperm, ?_⟩
  · unfold constructSolution
    rw [hst2]
  · have := legDist_pos heur st2.current start
    have hd0 : (0 : ℝ) ≤ st2.dist := le_trans (le_refl 0) hdist2
    linarith

/-! ### C2: iteration-level lemmas -/

theorem antsLoop_spec (cfg : ACOConfig) (ph heur : ℕ → ℕ → ℝ) (n : ℕ)
    (rng : AcoRng) (it : ℕ) (hn : 0 < n) (hph : PhPos n ph) (hheur : HeurPos n heur)
    (hheurnn : ∀ i j, 0 ≤ heur i j) (hdraw : DrawsOk rng) :
    ∀ ants : List ℕ,
      ∃ sols, antsLoop cfg ph heur n rng it ants = some sols
        ∧ sols.length = ants.length ∧ ∀ s ∈ sols, SolGood n s := by
  intro ants
  induction ants with
  | nil => exact ⟨[], rfl, rfl, by simp⟩
  | cons ant rest ih =>
    obtain ⟨sols, hsols, hlen, hgood⟩ := ih
    obtain ⟨p, d, hpd, hperm, hdpos⟩ := constructSolution_perm ph heur n
      (rng.start it ant % n) cfg.alpha cfg.beta (rng.draw it ant)
      hn (Nat.mod_lt _ hn) hph hheur hheurnn (fun s => hdraw it ant s)
    refine ⟨(p, d) :: sols, ?_, by simp [hlen], ?_⟩
    · unfold antsLoop
      rw [hpd, hsols]
    · intro s hs
      rcases List.mem_cons.mp hs with rfl | hs2
      · exact ⟨hperm, hdpos⟩
      · exact hgood s hs2

theorem updateBest_good (n : ℕ) (sols : List (List ℕ × ℝ))
    (hs : ∀ s ∈ sols, SolGood n s) :
    ∀ best : Option (List ℕ × ℝ), (∀ pv, best = some pv → SolGood n pv) →
      (∀ pv, updateBest best sols = some pv → SolGood n pv)
        ∧ (best.isSome ∨ sols ≠ [] → (updateBest best sols).isSome) := by
  induction sols with
  | nil =>
    intro best hb
    refine ⟨fun pv h => hb pv h, ?_⟩
    rintro (h | h)
    · exact h
    · simp at h
  | cons s rest ih =>
    intro best hb
    have hsgood : SolGood n s := hs s (List.mem_cons_self s rest)
    have hrest : ∀ x ∈ rest, SolGood n x := fun x hx => hs x (List.mem_cons_of_mem s hx)
    have hstep : ∀ pv, (match best with
        | none => some s
        | some bv => if s.2 < bv.2 then some s else best) = some pv → SolGood n pv := by
      intro pv h
      match best, h with
      | none, h => cases h; exact hsgood
      | some bv, h =>
        dsimp only at h
        split_ifs at h with hc
        · cases h; exact hsgood
        · exact hb pv h
    have hstepSome : (match best with
        | none => some s
        | some bv => if s.2 < bv.2 then some s else best).isSome := by
      match best with
      | none => rfl
      | some bv =>
        dsimp only
        split_ifs with hc
        · rfl
        · rfl
    obtain ⟨hg, hsome⟩ := ih hrest _ hstep
    constructor
    · intro pv h
      apply hg pv
      rw [← h]
      rfl
    · intro _
      have := hsome (Or.inl hstepSome)
      rw [← this]
      rfl

theorem addAt_pos (n : ℕ) (ph : ℕ → ℕ → ℝ) (i j : ℕ) (dep : ℝ)
    (hph : PhPos n ph) (hdep : 0 ≤ dep) : PhPos n (addAt ph i j dep) := by
  intro a b ha hb
  unfold addAt
  split_ifs with h
  · have := hph a b ha hb
    linarith
  · exact hph a b ha hb

theorem depositEdge_pos (n : ℕ) (ph : ℕ → ℕ → ℝ) (i j : ℕ) (dep : ℝ)
    (hph : PhPos n ph) (hdep : 0 ≤ dep) : PhPos n (depositEdge ph i j dep) :=
  addAt_pos n _ j i dep (addAt_pos n ph i j dep hph hdep) hdep

theorem depositEdges_fold_pos (n : ℕ) (dep : ℝ) (hdep : 0 ≤ dep) :
    ∀ (prs : List (ℕ × ℕ)) (ph : ℕ → ℕ → ℝ), PhPos n ph →
      PhPos n (prs.foldl (fun m p => depositEdge m p.1 p.2 dep) ph) := by
  intro prs
  induction prs with
  | nil => intro ph hph; exact hph
  | cons p rest ih =>
    intro ph hph
    exact ih _ (depositEdge_pos n ph p.1 p.2 dep hph hdep)

theorem depositSol_pos (n : ℕ) (q : ℝ) (ph : ℕ → ℕ → ℝ) (sol : List ℕ × ℝ)
    (hph : PhPos n ph) (hq : 0 ≤ q) (hd : 0 < sol.2) :
    PhPos n (depositSol q ph sol) := by
  have hdep : 0 ≤ q / sol.2 := div_nonneg hq (le_of_lt hd)
  exact depositEdge_pos n _ _ _ _
    (depositEdges_fold_pos n (q / sol.2) hdep (pathPairs sol.1) ph hph) hdep

theorem boostSol_pos (n : ℕ) (q : ℝ) (ph : ℕ → ℕ → ℝ) (best : List ℕ × ℝ)
    (hph : PhPos n ph) (hq : 0 ≤ q) (hd : 0 < best.2) :
    PhPos n (boostSol q ph best) := by
  have hdep : 0 ≤ q / best.2 * 2 := by
    have := div_nonneg hq (le_of_lt hd)
    linarith
  exact depositEdges_fold_pos n (q / best.2 * 2) hdep (pathPairs best.1) ph hph

theorem insertSol_mem (x : List ℕ × ℝ) (s : List ℕ × ℝ) :
    ∀ l, s ∈ insertSol x l → s = x ∨ s ∈ l := by
  intro l
  induction l with
  | nil =>
    intro h
    rcases List.mem_singleton.mp h with rfl
    exact Or.inl rfl
  | cons y ys ih =>
    intro h
    unfold insertSol at h
    split_ifs at h with hc
    · rcases List.mem_cons.mp h with rfl | h2
      · exact Or.inr (List.mem_cons_self _ _)
      · rcases ih h2 with h3 | h3
        · exact Or.inl h3
        · exact Or.inr (List.mem_cons_of_mem _ h3)
    · rcases List.mem_cons.mp h with rfl | h2
      · exact Or.inl rfl
      · exact Or.inr h2

theorem sortSols_mem (s : List ℕ × ℝ) :
    ∀ l, s ∈ sortSols l → s ∈ l := by
  intro l
  induction l with
  | nil => intro h; simp [sortSols] at h
  | cons x xs ih =>
    intro h
    unfold sortSols at h
    rcases insertSol_mem x s _ h with rfl | h2
    · exact List.mem_cons_self _ _
    · exact List.mem_cons_of_mem _ (ih h2)

theorem depositSols_fold_pos (n : ℕ) (q : ℝ) (hq : 0 ≤ q) :
    ∀ (sols : List (List ℕ × ℝ)) (ph : ℕ → ℕ → ℝ), PhPos n ph →
      (∀ s ∈ sols, 0 < s.2) → PhPos n (sols.foldl (depositSol q) ph) := by
  intro sols
  induction sols with
  | nil => intro ph hph _; exact hph
  | cons s rest ih =>
    intro ph hph hd
    exact ih _ (depositSol_pos n q ph s hph hq (hd s (List.mem_cons_self _ _)))
      (fun x hx => hd x (List.mem_cons_of_mem _ hx))

theorem updatePheromones_pos (cfg : ACOConfig) (n : ℕ) (ph : ℕ → ℕ → ℝ)
    (best : Option (List ℕ × ℝ)) (sols : List (List ℕ × ℝ)) (hph : PhPos n ph)
    (hevap : cfg.evaporationRate < 1) (hq : 0 ≤ cfg.q)
    (hb : ∀ pv, best = some pv → 0 < pv.2) (hs : ∀ s ∈ sols, 0 < s.2) :
    PhPos n (updatePheromones cfg ph best sols) := by
  have hevapPos : PhPos n (fun i j => ph i j * (1 - cfg.evaporationRate)) := by
    intro i j hi hj
    have := hph i j hi hj
    have h1 : (0 : ℝ) < 1 - cfg.evaporationRate := by linarith
    positivity
  have htake : ∀ s ∈ (sortSols sols).take cfg.nBest, 0 < s.2 := by
    intro s hsmem
    exact hs s (sortSols_mem s sols (List.mem_of_mem_take hsmem))
  have hfold := depositSols_fold_pos n cfg.q hq ((sortSols sols).take cfg.nBest)
    _ hevapPos htake
  unfold updatePheromones
  match best, hb with
  | none, _ => exact hfold
  | some bv, hb => exact boostSol_pos n cfg.q _ bv hfold hq (hb bv rfl)

theorem optimizeAux_spec (cfg : ACOConfig) (heur : ℕ → ℕ → ℝ) (n : ℕ)
    (rng : AcoRng) (hn : 0 < n) (hants : 0 < cfg.nAnts) (hheur : HeurPos n heur)
    (hheurnn : ∀ i j, 0 ≤ heur i j) (hdraw : DrawsOk rng)
    (hevap : cfg.evaporationRate < 1) (hq : 0 ≤ cfg.q) :
    ∀ (its : List ℕ) (st : AcoState), PhPos n st.ph →
      (∀ pv, st.best = some pv → SolGood n pv) →
      ∃ st2, optimizeAux cfg heur n rng its st = some st2
        ∧ PhPos n st2.ph ∧ (∀ pv, st2.best = some pv → SolGood n pv)
        ∧ (st.best.isSome → st2.best.isSome) ∧ (its ≠ [] → st2.best.isSome) := by
  intro its
  induction its with
  | nil =>
    intro st hph hbest
    exact ⟨st, rfl, hph, hbest, fun h => h, fun h => absurd rfl h⟩
  | cons it rest ih =>
    intro st hph hbest
    obtain ⟨sols, hsols, hlen, hgood⟩ := antsLoop_spec cfg st.ph heur n rng it hn hph
      hheur hheurnn hdraw (List.range cfg.nAnts)
    obtain ⟨hub, hubSome⟩ := updateBest_good n sols hgood st.best hbest
    have hsolsne : sols ≠ [] := by
      intro hc
      rw [hc] at hlen
      simp at hlen
      omega
    have hbest2some : (updateBest st.best sols).isSome := hubSome (Or.inr hsolsne)
    have hph2 : PhPos n (updatePheromones cfg st.ph (updateBest st.best sols) sols) :=
      updatePheromones_pos cfg n st.ph _ sols hph hevap hq
        (fun pv h => (hub pv h).2) (fun s hsm => (hgood s hsm).2)
    obtain ⟨st3, hst3, h1, h2, h3, h4⟩ := ih
      { ph := updatePheromones cfg st.ph (updateBest st.best sols) sols
        best := updateBest st.best sols
        history := st.history ++ [(updateBest st.best sols).map Prod.snd] }
      hph2 hub
    refine ⟨st3, ?_, h1, h2, fun _ => h3 hbest2some, fun _ => h3 hbest2some⟩
    unfold optimizeAux acoIter
    unfold constructSolutions
    rw [hsols]
    exact hst3

theorem optimize_spec (cfg : ACOConfig) (m : ℕ → ℕ → ℝ) (n : ℕ) (rng : AcoRng)
    (hn : 0 < n) (hiter : 0 < cfg.nIterations) (hants : 0 < cfg.nAnts)
    (hm : ∀ i j, i < n → j < n → i ≠ j → 0 < m i j) (hdraw : DrawsOk rng)
    (hevap : cfg.evaporationRate < 1) (hq : 0 ≤ cfg.q) :
    ∃ p d, optimize cfg m n rng = some (some (p, d)) ∧ p.Perm (List.range n) := by
  have hheur : HeurPos n (heuristicOf m) := by
    intro i j hi hj hne
    unfold heuristicOf
    rw [if_pos (hm i j hi hj hne)]
    have := hm i j hi hj hne
    positivity
  obtain ⟨st2, hst2, -, hgood, -, hsome⟩ := optimizeAux_spec cfg (heuristicOf m) n rng
    hn hants hheur (heuristicOf_nonneg m) hdraw hevap hq
    (List.range cfg.nIterations)
    { ph := fun _ _ => 1, best := none, history := [] }
    (fun _ _ _ _ => one_pos) (by intro pv h; cases h)
  have hne : List.range cfg.nIterations ≠ [] := by
    simp [List.range_eq_nil]
    omega
  obtain ⟨⟨p, d⟩, hpd⟩ := Option.isSome_iff_exists.mp (hsome hne)
  refine ⟨p, d, ?_, (hgood (p, d) hpd).1⟩
  unfold optimize
  rw [hst2]
  simp [hpd]

/-! ### C2: wrapper-level lemmas and the refiner permutation theorem -/

theorem filter_day_shape (d0 d1 : Stop) (pois : List Stop)
    (hd0 : isDepotStop d0 = true) (hd1 : isDepotStop d1 = true)
    (hp : ∀ p ∈ pois, isDepotStop p = false) :
    (d0 :: pois ++ [d1]).filter isDepotStop = [d0, d1]
      ∧ (d0 :: pois ++ [d1]).filter (fun s => ! isDepotStop s) = pois := by
  constructor
  · simp only [List.filter_cons, hd0, List.filter_append, cond_true]
    rw [List.filter_eq_nil_iff.mpr (by intro x hx; rw [hp x hx]; simp)]
    simp [List.filter_cons, hd1]
  · simp only [List.filter_cons, hd0, hd1, List.filter_append, cond_true,
      Bool.not_true, cond_false]
    rw [List.filter_eq_self.mpr (by intro x hx; rw [hp x hx]; rfl)]
    simp

theorem coordsOf_length : ∀ (l : List Stop) (c : List (ℚ × ℚ)),
    coordsOf l = some c → c.length = l.length := by
  intro l
  induction l with
  | nil =>
    intro c h
    unfold coordsOf at h
    cases h
    rfl
  | cons s rest ih =>
    intro c h
    unfold coordsOf at h
    cases hr : resolveCoord s with
    | none => rw [hr] at h; cases h
    | some c0 =>
      rw [hr] at h
      cases hrest : coordsOf rest with
      | none => rw [hrest] at h; cases h
      | some cs =>
        rw [hrest] at h
        cases h
        simp [ih cs hrest]

theorem range_map_getD {α : Type} (l : List α) (d : α) :
    (List.range l.length).map (fun i => l.getD i d) = l := by
  apply List.ext_getElem
  · simp
  · intro k h1 h2
    simp [List.getD_eq_getElem?_getD, List.getElem?_eq_getElem, h2]

/-- C2 (amended): when the processed stop list has the two-depot shape
`depot :: pois ++ [depot]` with POI stops in the middle, the configured ant
and iteration counts are at least 1, the evaporation rate is below 1, the
deposit factor is non-negative, every resolved POI pair lies at positive
distance, and every random draw lies strictly in (0, 1), the ACO refiner
returns a permutation of its input: no stop is added, removed, or
duplicated.  (A day entering with a single trailing depot stop — the shape
`solve_cvrptw` actually emits — instead has that stop emitted at both ends
and duplicated, see the counterexample.) -/
theorem aco_refiner_permutation (d0 d1 : Stop) (pois : List Stop)
    (cfgO : Option ACOConfig) (rng : AcoRng)
    (hd0 : isDepotStop d0 = true) (hd1 : isDepotStop d1 = true)
    (hp : ∀ p ∈ pois, isDepotStop p = false)
    (hants : 0 < (cfgO.getD wrapperAcoConfig).nAnts)
    (hiter : 0 < (cfgO.getD wrapperAcoConfig).nIterations)
    (hevap : (cfgO.getD wrapperAcoConfig).evaporationRate < 1)
    (hq : 0 ≤ (cfgO.getD wrapperAcoConfig).q)
    (hdist : ∀ coords, coordsOf pois = some coords →
      ∀ i j, i < coords.length → j < coords.length → i ≠ j → 0 < acoMatrix coords i j)
    (hdraw : DrawsOk rng) :
    ∃ out, optimize_day_route_with_aco (d0 :: pois ++ [d1]) cfgO rng = some out
      ∧ out.Perm (d0 :: pois ++ [d1]) := by
  obtain ⟨hfd, hfp⟩ := filter_day_shape d0 d1 pois hd0 hd1 hp
  by_cases hlen : (d0 :: pois ++ [d1]).length ≤ 2
  · exact ⟨_, by unfold optimize_day_route_with_aco; rw [if_pos hlen], List.Perm.refl _⟩
  · by_cases hp1 : pois.length ≤ 1
    · refine ⟨_, ?_, List.Perm.refl (d0 :: pois ++ [d1])⟩
      unfold optimize_day_route_with_aco
      rw [if_neg hlen, hfp, if_pos hp1]
    · cases hco : coordsOf pois with
      | none =>
        refine ⟨_, ?_, List.Perm.refl (d0 :: pois ++ [d1])⟩
        unfold optimize_day_route_with_aco
        rw [if_neg hlen, hfp, if_neg hp1, hco]
      | some coords =>
        have hlenc : coords.length = pois.length := coordsOf_length pois coords hco
        have hn : 0 < coords.length := by
          rw [hlenc]
          omega
        obtain ⟨p, d, hopt, hperm⟩ := optimize_spec (cfgO.getD wrapperAcoConfig)
          (acoMatrix coords) coords.length rng hn hiter hants
          (hdist coords hco) hdraw hevap hq
        have hmapped : (p.map (fun i => pois.getD i dummyStop)).Perm pois := by
          have h1 := hperm.map (fun i => pois.getD i dummyStop)
          rw [hlenc] at h1
          rw [range_map_getD pois dummyStop] at h1
          exact h1
        refine ⟨d0 :: p.map (fun i => pois.getD i dummyStop) ++ [d1], ?_, ?_⟩
        · unfold optimize_day_route_with_aco
          rw [if_neg hlen, hfp, if_neg hp1, hco, hfd]
          dsimp only
          rw [hopt]
          dsimp only
          simp [List.getLastD]
        · exact List.Perm.cons d0 (hmapped.append_right [d1])

/-! ### C2: concrete haversine values -/

theorem haversine_self (lat lon : ℝ) : haversine_distance lat lon lat lon = 0 := by
  have ha : havA lat lon lat lon = 0 := by
    unfold havA radians
    have h1 : (lat - lat) * Real.pi / 180 / 2 = 0 := by ring
    have h2 : (lon - lon) * Real.pi / 180 / 2 = 0 := by ring
    rw [h1, h2, Real.sin_zero]
    ring
  unfold haversine_distance
  rw [ha, Real.sqrt_zero]
  have h3 : (1 : ℝ) - 0 = 1 := by norm_num
  rw [h3, Real.sqrt_one]
  unfold atan2
  rw [if_pos one_pos, zero_div, Real.arctan_zero]
  ring

theorem haversine_poles : haversine_distance 90 1 (-90) 1 = 6371 * Real.pi := by
  have ha : havA 90 1 (-90) 1 = 1 := by
    unfold havA radians
    have h1 : ((-90 : ℝ) - 90) * Real.pi / 180 / 2 = -(Real.pi / 2) := by ring
    have h2 : ((1 : ℝ) - 1) * Real.pi / 180 / 2 = 0 := by ring
    rw [h1, h2, Real.sin_neg, Real.sin_pi_div_two, Real.sin_zero]
    ring
  unfold haversine_distance
  rw [ha, Real.sqrt_one]
  have h3 : (1 : ℝ) - 1 = 0 := by norm_num
  rw [h3, Real.sqrt_zero]
  unfold atan2
  rw [if_neg (lt_irrefl 0), if_neg (lt_irrefl 0), if_pos one_pos]
  ring

/-- C2 witness: the amended permutation statement applied to a concrete
two-depot day with antipodal POIs, the default wrapper configuration and
uniform draws of 1/2. -/
theorem aco_refiner_permutation_witness :
    isDepotStop c2wh0 = true
      ∧ (∀ p ∈ [c2wq1, c2wq2], isDepotStop p = false)
      ∧ DrawsOk c2rngHalf
      ∧ ∃ out,
          optimize_day_route_with_aco (c2wh0 :: [c2wq1, c2wq2] ++ [c2wh0]) none c2rngHalf
            = some out
          ∧ out.Perm (c2wh0 :: [c2wq1, c2wq2] ++ [c2wh0]) := by
  have hdraw : DrawsOk c2rngHalf := by
    intro it ant s
    constructor
    · show (0 : ℝ) < 1 / 2
      norm_num
    · show (1 : ℝ) / 2 < 1
      norm_num
  have hdist : ∀ coords, coordsOf [c2wq1, c2wq2] = some coords →
      ∀ i j, i < coords.length → j < coords.length → i ≠ j →
        0 < acoMatrix coords i j := by
    intro coords hco
    have h0 : coordsOf [c2wq1, c2wq2] = some [((90 : ℚ), (1 : ℚ)), ((-90 : ℚ), (1 : ℚ))] :=
      rfl
    rw [h0] at hco
    have hc := (Option.some.inj hco).symm
    subst hc
    intro i j hi hj hne
    simp only [List.length_cons, List.length_nil] at hi hj
    interval_cases i <;> interval_cases j
    · omega
    · norm_num [acoMatrix]
      rw [haversine_poles]
      positivity
    · norm_num [acoMatrix]
      rw [haversine_poles]
      positivity
    · omega
  refine ⟨by decide, by decide, hdraw, ?_⟩
  exact aco_refiner_permutation c2wh0 c2wh0 [c2wq1, c2wq2] none c2rngHalf
    (by decide) (by decide) (by decide)
    (by show 0 < wrapperAcoConfig.nAnts; norm_num [wrapperAcoConfig])
    (by show 0 < wrapperAcoConfig.nIterations; norm_num [wrapperAcoConfig])
    (by show wrapperAcoConfig.evaporationRate < 1; norm_num [wrapperAcoConfig])
    (by show (0 : ℝ) ≤ wrapperAcoConfig.q; norm_num [wrapperAcoConfig])
    hdist hdraw

/-! ### C2: evaluation of the degenerate counterexample run -/

theorem c2_matrix_zero : ∀ i j, i < 2 → j < 2 → acoMatrix c2coords i j = 0 := by
  intro i j hi hj
  interval_cases i <;> interval_cases j <;>
    simp [acoMatrix, c2coords, haversine_self]

theorem c2_heur_zero : ∀ i j, i < 2 → j < 2 →
    heuristicOf (acoMatrix c2coords) i j = 0 := by
  intro i j hi hj
  unfold heuristicOf
  rw [c2_matrix_zero i j hi hj]
  simp

theorem c2_legDist : legDist (heuristicOf (acoMatrix c2coords)) 0 0 = 10000000000 := by
  unfold legDist
  rw [c2_heur_zero 0 0 (by norm_num) (by norm_num)]
  rw [if_neg (lt_irrefl 0)]

theorem c2_probsRaw_zero : ∀ j, j < 2 →
    probsRaw (fun _ _ => (1 : ℝ)) (heuristicOf (acoMatrix c2coords))
      (fun j => j == 0) 0 1 2 j = 0 := by
  intro j hj
  interval_cases j
  · unfold probsRaw
    simp
  · unfold probsRaw
    rw [if_neg (by simp)]
    rw [c2_heur_zero 0 1 (by norm_num) (by norm_num)]
    rw [Real.zero_rpow (by norm_num : (2 : ℝ) ≠ 0)]
    simp

theorem c2_calcProbs : calcProbs (fun _ _ => (1 : ℝ)) (heuristicOf (acoMatrix c2coords)) 2
    (fun j => j == 0) 0 1 2
    = probsRaw (fun _ _ => (1 : ℝ)) (heuristicOf (acoMatrix c2coords))
      (fun j => j == 0) 0 1 2 := by
  have htot : probsTotal 2 (probsRaw (fun _ _ => (1 : ℝ))
      (heuristicOf (acoMatrix c2coords)) (fun j => j == 0) 0 1 2) = 0 := by
    unfold probsTotal
    rw [Finset.sum_range_succ, Finset.sum_range_one]
    rw [c2_probsRaw_zero 0 (by norm_num), c2_probsRaw_zero 1 (by norm_num)]
    ring
  unfold calcProbs
  rw [htot]
  simp

theorem c2_nextCity : nextCity (fun _ _ => (1 : ℝ)) (heuristicOf (acoMatrix c2coords)) 2
    (fun j => j == 0) 0 1 2 0 = 0 := by
  have hcs0 : csum (calcProbs (fun _ _ => (1 : ℝ)) (heuristicOf (acoMatrix c2coords)) 2
      (fun j => j == 0) 0 1 2) 0 = 0 := by
    unfold csum
    rw [Finset.sum_range_one, c2_calcProbs, c2_probsRaw_zero 0 (by norm_num)]
  unfold nextCity searchsorted ssAux
  rw [if_pos (by rw [hcs0])]

theorem c2_constructSolution_eval :
    constructSolution (fun _ _ => (1 : ℝ)) (heuristicOf (acoMatrix c2coords)) 2
      (c2rng.start 0 0 % 2) c2cfg.alpha c2cfg.beta (c2rng.draw 0 0)
      = some ([0, 0], 20000000000) := by
  have hstart : c2rng.start 0 0 % 2 = 0 := rfl
  have halpha : c2cfg.alpha = 1 := rfl
  have hbeta : c2cfg.beta = 2 := rfl
  rw [hstart, halpha, hbeta]
  unfold constructSolution
  rw [show (List.range 2).drop 1 = [1] from rfl]
  unfold constructAux
  rw [show c2rng.draw 0 0 1 = (0 : ℝ) from rfl]
  unfold constructStep
  dsimp only
  rw [c2_nextCity]
  rw [if_pos (by norm_num : (0 : ℕ) < 2)]
  dsimp only
  unfold constructAux
  dsimp only
  rw [c2_legDist]
  norm_num

theorem c2_constructSolutions_eval :
    constructSolutions c2cfg (fun _ _ => (1 : ℝ)) (heuristicOf (acoMatrix c2coords)) 2
      c2rng 0 = some [([0, 0], 20000000000)] := by
  unfold constructSolutions
  rw [show List.range c2cfg.nAnts = [0] from rfl]
  unfold antsLoop
  rw [c2_constructSolution_eval]
  rfl

theorem c2_optimize_eval :
    optimize c2cfg (acoMatrix c2coords) 2 c2rng = some (some ([0, 0], 20000000000)) := by
  unfold optimize
  rw [show List.range c2cfg.nIterations = [0] from rfl]
  unfold optimizeAux
  unfold acoIter
  dsimp only
  rw [c2_constructSolutions_eval]
  rfl

/-- C2 counterexample: a day whose stop list is two POI stops followed by the
single trailing hotel stop (the shape `solve_cvrptw` emits).  Processed with
a one-ant, one-iteration configuration and draws of exactly 0 (legal
`np.random.random` output), the refiner returns the hotel stop twice and the
first POI twice, dropping the second POI: the output is not a permutation of
the input. -/
theorem c2_counterexample :
    optimize_day_route_with_aco c2stops (some c2cfg) c2rng
      = some [c2hotel, c2p1, c2p1, c2hotel]
    ∧ ¬ ([c2hotel, c2p1, c2p1, c2hotel] : List Stop).Perm c2stops := by
  constructor
  · unfold optimize_day_route_with_aco
    rw [if_neg (by decide : ¬ (c2stops.length ≤ 2))]
    rw [show c2stops.filter (fun s => ! isDepotStop s) = [c2p1, c2p2] from by decide]
    rw [if_neg (by decide : ¬ (([c2p1, c2p2] : List Stop).length ≤ 1))]
    rw [show coordsOf [c2p1, c2p2] = some c2coords from by decide]
    dsimp only
    rw [show (some c2cfg).getD wrapperAcoConfig = c2cfg from rfl]
    rw [show c2coords.length = 2 from rfl]
    rw [c2_optimize_eval]
    dsimp only
    rw [show c2stops.filter isDepotStop = [c2hotel] from by decide]
    norm_num
  · intro h
    have hlen := h.length_eq
    simp [c2stops] at hlen

/-- C10 witness: a specific date span ending before it starts produces empty
`day_specs`, an empty plan and a diagnostic note. -/
theorem run_cvrptw_empty_days_has_note_witness :
    (run_cvrptw c10env c10mo c10hotel "balanced" none).days = []
      ∧ ((run_cvrptw c10env c10mo c10hotel "balanced" none).note).isSome :=
  ⟨by decide, run_cvrptw_empty_days_has_note c10env c10mo c10hotel "balanced" none
    (by decide)⟩

end Fika
